import Mathlib

/-!
Verification of the election_odds core pipeline: a shallow embedding of the
snapshot store (`scripts/storage.py`), the window scheduler / backfill job
(`scripts/backfill.py`) and the market matcher / arbitrage detector
(`aggregator.py`), with theorems settling the specified properties.

Conventions of the embedding:
- SQL tables are lists of row records in insertion (rowid) order; AUTOINCREMENT
  ids are modelled by a per-table `next…Id` counter in the store.
- `SELECT … WHERE key` with `fetchone` is `List.find?` on the row list;
  `UPDATE … WHERE key` maps the update over the rows matching the predicate.
- The wall clock (`datetime.now(timezone.utc).isoformat()`) is passed in
  explicitly as a `now : String` argument.
- Python `REAL` prices are modelled as exact rationals, `TEXT` as `String`,
  nullable columns and defaulted `None` arguments as `Option`.
-/

namespace ElectionOdds

/-! ## Storage rows (schema of `storage.py:_init_schema`) -/

/-- A row of the `markets` table. -/
structure MarketRow where
  id : Nat
  source : String
  market_id : String
  market_name : String
  category : Option String
  status : Option String
  url : Option String
  total_volume : Option ℚ
  end_date : Option String
  created_at : String
  updated_at : String
deriving Repr, DecidableEq

/-- A row of the `contracts` table. -/
structure ContractRow where
  id : Nat
  source : String
  market_id : String
  contract_id : String
  contract_name : String
  short_name : Option String
  created_at : String
  updated_at : String
deriving Repr, DecidableEq

/-- A row of the `price_snapshots` table. -/
structure SnapshotRow where
  id : Nat
  source : String
  market_id : String
  contract_id : String
  snapshot_time : String
  yes_price : Option ℚ
  no_price : Option ℚ
  yes_bid : Option ℚ
  yes_ask : Option ℚ
  volume : Option ℚ
  raw_data : Option String
  created_at : String
deriving Repr, DecidableEq

/-- A row of the `sync_checkpoints` table. -/
structure CheckpointRow where
  id : Nat
  source : String
  sync_type : String
  window_start : String
  window_end : String
  status : String
  records_fetched : Int
  records_inserted : Int
  records_updated : Int
  records_deduped : Int
  error_message : Option String
  started_at : Option String
  completed_at : Option String
  created_at : String
deriving Repr, DecidableEq

/-- The SQLite database state: four tables plus their AUTOINCREMENT counters. -/
structure Store where
  markets : List MarketRow
  contracts : List ContractRow
  snapshots : List SnapshotRow
  checkpoints : List CheckpointRow
  nextMarketId : Nat
  nextContractId : Nat
  nextSnapshotId : Nat
  nextCheckpointId : Nat
deriving Repr, DecidableEq

/-- The empty database, as created by `_init_schema`. -/
def Store.empty : Store :=
  { markets := [], contracts := [], snapshots := [], checkpoints := []
    nextMarketId := 1, nextContractId := 1, nextSnapshotId := 1, nextCheckpointId := 1 }

/-! ## Key predicates (the `WHERE` clauses of the upserts) -/

/-- `WHERE source = ? AND market_id = ?` on `markets`. -/
def marketKeyP (source market_id : String) (r : MarketRow) : Bool :=
  decide (r.source = source ∧ r.market_id = market_id)

/-- `WHERE source = ? AND market_id = ? AND contract_id = ?` on `contracts`. -/
def contractKeyP (source market_id contract_id : String) (r : ContractRow) : Bool :=
  decide (r.source = source ∧ r.market_id = market_id ∧ r.contract_id = contract_id)

/-- `WHERE source = ? AND market_id = ? AND contract_id = ? AND snapshot_time = ?`. -/
def snapshotKeyP (source market_id contract_id snapshot_time : String) (r : SnapshotRow) : Bool :=
  decide (r.source = source ∧ r.market_id = market_id ∧ r.contract_id = contract_id ∧
    r.snapshot_time = snapshot_time)

/-- `WHERE source = ? AND sync_type = ? AND window_start = ? AND window_end = ?`. -/
def checkpointKeyP (source sync_type window_start window_end : String) (r : CheckpointRow) : Bool :=
  decide (r.source = source ∧ r.sync_type = sync_type ∧ r.window_start = window_start ∧
    r.window_end = window_end)

/-! ## Storage operations (`storage.py`) -/

/-- `Storage.upsert_market`: look the key up; if present, `UPDATE` the mutable
fields and return `(id, False)`; else `INSERT` and return `(lastrowid, True)`. -/
def upsert_market (st : Store) (now : String) (source market_id market_name : String)
    (category status url : Option String) (total_volume : Option ℚ)
    (end_date : Option String) : Store × Nat × Bool :=
  match st.markets.find? (marketKeyP source market_id) with
  | some existing =>
    ({ st with markets := st.markets.map fun r =>
        if marketKeyP source market_id r then
          { r with market_name := market_name, category := category, status := status,
                   url := url, total_volume := total_volume, end_date := end_date,
                   updated_at := now }
        else r },
     existing.id, false)
  | none =>
    ({ st with
        markets := st.markets ++
          [{ id := st.nextMarketId, source := source, market_id := market_id,
             market_name := market_name, category := category, status := status,
             url := url, total_volume := total_volume, end_date := end_date,
             created_at := now, updated_at := now }]
        nextMarketId := st.nextMarketId + 1 },
     st.nextMarketId, true)

/-- `Storage.upsert_contract`. -/
def upsert_contract (st : Store) (now : String) (source market_id contract_id contract_name : String)
    (short_name : Option String) : Store × Nat × Bool :=
  match st.contracts.find? (contractKeyP source market_id contract_id) with
  | some existing =>
    ({ st with contracts := st.contracts.map fun r =>
        if contractKeyP source market_id contract_id r then
          { r with contract_name := contract_name, short_name := short_name, updated_at := now }
        else r },
     existing.id, false)
  | none =>
    ({ st with
        contracts := st.contracts ++
          [{ id := st.nextContractId, source := source, market_id := market_id,
             contract_id := contract_id, contract_name := contract_name,
             short_name := short_name, created_at := now, updated_at := now }]
        nextContractId := st.nextContractId + 1 },
     st.nextContractId, true)

/-- `Storage.upsert_price_snapshot`: key is
`(source, market_id, contract_id, snapshot_time)`; `raw_data` arrives already
JSON-serialized (`json.dumps(raw_data) if raw_data else None`). -/
def upsert_price_snapshot (st : Store) (now : String)
    (source market_id contract_id snapshot_time : String)
    (yes_price no_price yes_bid yes_ask volume : Option ℚ)
    (raw_json : Option String) : Store × Nat × Bool :=
  match st.snapshots.find? (snapshotKeyP source market_id contract_id snapshot_time) with
  | some existing =>
    ({ st with snapshots := st.snapshots.map fun r =>
        if snapshotKeyP source market_id contract_id snapshot_time r then
          { r with yes_price := yes_price, no_price := no_price, yes_bid := yes_bid,
                   yes_ask := yes_ask, volume := volume, raw_data := raw_json }
        else r },
     existing.id, false)
  | none =>
    ({ st with
        snapshots := st.snapshots ++
          [{ id := st.nextSnapshotId, source := source, market_id := market_id,
             contract_id := contract_id, snapshot_time := snapshot_time,
             yes_price := yes_price, no_price := no_price, yes_bid := yes_bid,
             yes_ask := yes_ask, volume := volume, raw_data := raw_json,
             created_at := now }]
        nextSnapshotId := st.nextSnapshotId + 1 },
     st.nextSnapshotId, true)

/-- The counter/status reset applied by `create_sync_checkpoint` to a
non-completed existing row ("Reset for retry"). -/
def resetCheckpointRow (r : CheckpointRow) : CheckpointRow :=
  { r with status := "pending", started_at := none, completed_at := none,
           records_fetched := 0, records_inserted := 0,
           records_updated := 0, records_deduped := 0, error_message := none }

/-- `Storage.create_sync_checkpoint`: idempotent on the natural key; a
`completed` row is returned untouched, any other existing row is reset to
`pending` (by its `id`), otherwise a fresh `pending` row is inserted. -/
def create_sync_checkpoint (st : Store) (now : String)
    (source sync_type window_start window_end : String) : Store × Nat :=
  match st.checkpoints.find? (checkpointKeyP source sync_type window_start window_end) with
  | some existing =>
    if existing.status = "completed" then (st, existing.id)
    else
      ({ st with checkpoints := st.checkpoints.map fun r =>
          if r.id = existing.id then resetCheckpointRow r else r },
       existing.id)
  | none =>
    ({ st with
        checkpoints := st.checkpoints ++
          [{ id := st.nextCheckpointId, source := source, sync_type := sync_type,
             window_start := window_start, window_end := window_end, status := "pending",
             records_fetched := 0, records_inserted := 0, records_updated := 0,
             records_deduped := 0, error_message := none, started_at := none,
             completed_at := none, created_at := now }]
        nextCheckpointId := st.nextCheckpointId + 1 },
     st.nextCheckpointId)

/-- Python truthiness of the optional `status` argument (`if status:`). -/
def statusTruthy : Option String → Bool
  | none => false
  | some s => decide (s ≠ "")

/-- The column assignments `update_sync_checkpoint` builds for one row:
a truthy `status` is written and stamps `started_at` (on `running`) or
`completed_at` (on `completed`/`failed`); each counter and `error_message`
is written only when its argument `is not None`. -/
def applyCheckpointUpdate (now : String) (status : Option String)
    (records_fetched records_inserted records_updated records_deduped : Option Int)
    (error_message : Option String) (r : CheckpointRow) : CheckpointRow :=
  let r1 :=
    match status with
    | none => r
    | some s =>
      if s = "" then r
      else
        let rs := { r with status := s }
        if s = "running" then { rs with started_at := some now }
        else if s = "completed" ∨ s = "failed" then { rs with completed_at := some now }
        else rs
  let r2 := match records_fetched with | none => r1 | some v => { r1 with records_fetched := v }
  let r3 := match records_inserted with | none => r2 | some v => { r2 with records_inserted := v }
  let r4 := match records_updated with | none => r3 | some v => { r3 with records_updated := v }
  let r5 := match records_deduped with | none => r4 | some v => { r4 with records_deduped := v }
  match error_message with | none => r5 | some m => { r5 with error_message := some m }

/-- `if updates:` — whether any `SET` clause was collected. -/
def anyCheckpointUpdates (status : Option String)
    (records_fetched records_inserted records_updated records_deduped : Option Int)
    (error_message : Option String) : Bool :=
  statusTruthy status || records_fetched.isSome || records_inserted.isSome ||
    records_updated.isSome || records_deduped.isSome || error_message.isSome

/-- `Storage.update_sync_checkpoint`: apply the collected `SET` clauses to the
row(s) `WHERE id = checkpoint_id`; execute nothing when no clause was built. -/
def update_sync_checkpoint (st : Store) (now : String) (checkpoint_id : Nat)
    (status : Option String)
    (records_fetched records_inserted records_updated records_deduped : Option Int)
    (error_message : Option String) : Store :=
  if anyCheckpointUpdates status records_fetched records_inserted records_updated
      records_deduped error_message then
    { st with checkpoints := st.checkpoints.map fun r =>
        if r.id = checkpoint_id then
          (applyCheckpointUpdate now status records_fetched records_inserted records_updated
            records_deduped error_message r)
        else r }
  else st

/-! ## Window scheduler (`backfill.py:BackfillJob.generate_windows`)

Instants (`datetime`) are modelled as natural-number ticks and the window size
(`timedelta`) as a natural number of ticks.  The `while current < end_date`
loop is given explicit fuel `end_date - start_date`; one iteration advances
`current` by at least one tick whenever `0 < window_size`, so this fuel is
sufficient (proved below) and the definition stays structurally recursive. -/

/-- Loop body of `generate_windows`, with fuel. -/
def gwAux : Nat → Nat → Nat → Nat → List (Nat × Nat)
  | 0, _, _, _ => []
  | fuel + 1, current, end_date, window_size =>
    if current < end_date then
      (current, min (current + window_size) end_date) ::
        gwAux fuel (min (current + window_size) end_date) end_date window_size
    else []

/-- `BackfillJob.generate_windows(start_date, end_date, window_size)`. -/
def generate_windows (start_date end_date window_size : Nat) : List (Nat × Nat) :=
  gwAux (end_date - start_date) start_date end_date window_size

/-! ## Market matcher / arbitrage detector (`aggregator.py`) -/

/-- One `(source_name, market, contract)` tuple as it enters `name_index`:
only the fields `_aggregate_entries` reads (`contract.yes_price`,
`contract.no_price`, `contract.volume`, `source_name`). -/
structure Entry where
  source : String
  yes_price : Option ℚ
  no_price : Option ℚ
  volume : Option ℚ
deriving Repr, DecidableEq

/-- Python's `x or d` on an optional float: `None` and `0` are falsy. -/
def pyOr (x : Option ℚ) (d : ℚ) : ℚ :=
  match x with
  | none => d
  | some v => if v = 0 then d else v

/-- `yes_price = contract.yes_price or 0` in `_aggregate_entries`. -/
def entryYes (e : Entry) : ℚ := pyOr e.yes_price 0

/-- `no_price = contract.no_price or (1 - yes_price)` in `_aggregate_entries`. -/
def entryNo (e : Entry) : ℚ := pyOr e.no_price (1 - entryYes e)

/-- The `prices` list `_aggregate_entries` builds: `(source, yes, no)` for
each entry with `yes_price > 0`, in iteration order. -/
def pricesOf : List Entry → List (String × ℚ × ℚ)
  | [] => []
  | e :: es =>
    if entryYes e > 0 then (e.source, entryYes e, entryNo e) :: pricesOf es
    else pricesOf es

/-- `total_volume`: sum of the truthy `contract.volume` values. -/
def totalVolumeOf (entries : List Entry) : ℚ :=
  entries.foldl (fun acc e => match e.volume with
    | none => acc
    | some v => if v = 0 then acc else acc + v) 0

/-- Python `max(iterable, key=k)`: the first element with maximal key
(a later element replaces the champion only when strictly greater). -/
def pyMaxBy (k : α → ℚ) (x : α) (xs : List α) : α :=
  xs.foldl (fun best y => if k y > k best then y else best) x

/-- Python `min(iterable)` over the `yes` components. -/
def pyMinYes (x : String × ℚ × ℚ) (xs : List (String × ℚ × ℚ)) : ℚ :=
  xs.foldl (fun best y => min best y.2.1) x.2.1

/-- `AggregatedMarket` (the fields the detector computes; the
`sources` map is kept as the list of distinct source names in first-seen
order). -/
structure AggregatedMarket where
  canonical_name : String
  source_names : List String
  best_yes_price : ℚ
  best_no_price : ℚ
  best_yes_source : String
  best_no_source : String
  arbitrage_spread : ℚ
  total_volume : ℚ
deriving Repr, DecidableEq

/-- The distinct source names of a group in first-seen order (the keys of the
`sources` dict built by `_aggregate_entries`). -/
def sourceNamesOf (entries : List Entry) : List String :=
  entries.foldl (fun acc e => if e.source ∈ acc then acc else acc ++ [e.source]) []

/-- `MarketAggregator._aggregate_entries`: `None` when fewer than two entries
carry a positive `yes_price`; otherwise best prices and
`arbitrage = (1 - best_no[2]) - min(p[1] for p in prices)`. -/
def aggregate_entries (name : String) (entries : List Entry) : Option AggregatedMarket :=
  match pricesOf entries with
  | [] => none
  | [_] => none
  | p :: ps =>
    let best_yes := pyMaxBy (fun t => t.2.1) p ps
    let best_no := pyMaxBy (fun t => t.2.2) p ps
    let arbitrage := (1 - best_no.2.2) - pyMinYes p ps
    some { canonical_name := name, source_names := sourceNamesOf entries
           best_yes_price := best_yes.2.1, best_no_price := best_no.2.2
           best_yes_source := best_yes.1, best_no_source := best_no.1
           arbitrage_spread := arbitrage, total_volume := totalVolumeOf entries }

/-! ## Name normalization (`aggregator.py:MarketAggregator._normalize_name`)

The six `re.sub(pattern, '', name)` passes are modelled character-exactly for
patterns of the shape actually used: an alternation of literal words wrapped in
`\b…\b` (every alternative starts and ends with a word character), and the
single-character class `[^\w\s]`.  `re.sub` scans left to right over the
original string; at each position the alternatives are tried in pattern order
(`wins?` greedily tries `wins` before `win`); a match is erased and scanning
resumes right after it, so the word-boundary context of later matches is the
original text. -/

/-- Python `\w` (ASCII range, which is all the inputs contain). -/
def isWordChar (c : Char) : Bool := c.isAlphanum || c = '_'

/-- Python `\s`. -/
def isSpaceChar (c : Char) : Bool := c.isWhitespace

/-- Try the alternatives in order at the current position: the token must be a
literal prefix of the text and be followed by a word boundary (end of text or a
non-word character).  Returns the text after the erased match. -/
def firstTokenMatch : List (List Char) → List Char → Option (List Char)
  | [], _ => none
  | tok :: toks, cs =>
    if tok.isPrefixOf cs && (match cs.drop tok.length with
      | [] => true
      | d :: _ => !isWordChar d) then
      some (cs.drop tok.length)
    else firstTokenMatch toks cs

/-- One `re.sub(r'\b(alt|…)\b', '', ·)` pass.  `prevWord` tracks whether the
previous character of the original text was a word character (the `\b` on the
left); the fuel is the text length, an upper bound on the number of steps since
every step consumes at least one character. -/
def subTokensAux (toks : List (List Char)) : Nat → Bool → List Char → List Char
  | 0, _, cs => cs
  | _ + 1, _, [] => []
  | fuel + 1, prevWord, c :: cs =>
    match if prevWord then none else firstTokenMatch toks (c :: cs) with
    | some rest => subTokensAux toks fuel true rest
    | none => c :: subTokensAux toks fuel (isWordChar c) cs

/-- `re.sub` of a word-bounded alternation of literal tokens with `''`. -/
def reSubWords (toks : List String) (cs : List Char) : List Char :=
  subTokensAux (toks.map String.data) cs.length false cs

/-- Python `str.split()` — split on whitespace runs, dropping empty pieces. -/
def pySplitAux : List Char → List Char → List (List Char)
  | [], acc => if acc.isEmpty then [] else [acc.reverse]
  | c :: cs, acc =>
    if isSpaceChar c then
      if acc.isEmpty then pySplitAux cs [] else acc.reverse :: pySplitAux cs []
    else pySplitAux cs (c :: acc)

/-- Python `str.strip()`. -/
def pyStrip (cs : List Char) : List Char :=
  ((cs.dropWhile isSpaceChar).reverse.dropWhile isSpaceChar).reverse

/-- `MarketAggregator._normalize_name`: lower-case, apply the six stripping
patterns in order (`wins?` expanded to its greedy try order `wins`, `win`),
then `' '.join(name.split())` and `strip()`. -/
def normalize_name (name : String) : String :=
  let cs := name.data.map Char.toLower
  let cs := reSubWords ["to win", "will win", "wins", "win", "winner"] cs
  let cs := reSubWords ["the", "a", "an"] cs
  let cs := reSubWords ["2024", "2025", "2026", "2027", "2028", "2029", "2030"] cs
  let cs := reSubWords ["presidential", "president", "election", "nominee", "nomination"] cs
  let cs := reSubWords ["republican", "democratic", "gop", "dem"] cs
  let cs := cs.filter fun c => isWordChar c || isSpaceChar c
  let cs := List.intercalate [' '] (pySplitAux cs [])
  String.mk (pyStrip cs)

/-! ## Grouping and arbitrage detection (`aggregator.py`) -/

/-- A contract as the aggregator reads it from `fetch_all` results. -/
structure AggContract where
  contract_name : String
  yes_price : Option ℚ
  no_price : Option ℚ
  volume : Option ℚ
deriving Repr, DecidableEq

/-- A market as the aggregator reads it. -/
structure AggMarket where
  market_name : String
  contracts : List AggContract
deriving Repr, DecidableEq

/-- Append an entry to the list stored under `key` in the insertion-ordered
`name_index` (Python dicts preserve insertion order). -/
def indexAdd : List (String × List Entry) → String → Entry → List (String × List Entry)
  | [], key, e => [(key, [e])]
  | (k, es) :: rest, key, e =>
    if k = key then (k, es ++ [e]) :: rest else (k, es) :: indexAdd rest key e

/-- The `name_index` built by `find_matching_markets`: for each source (in
result order), market, contract, file the entry under the normalized
`"{market_name} {contract_name}"`. -/
def buildNameIndex (results : List (String × List AggMarket)) : List (String × List Entry) :=
  results.foldl (fun idx sm =>
    sm.2.foldl (fun idx m =>
      m.contracts.foldl (fun idx c =>
        indexAdd idx (normalize_name (m.market_name ++ " " ++ c.contract_name))
          { source := sm.1, yes_price := c.yes_price, no_price := c.no_price,
            volume := c.volume })
        idx) idx) []

/-- Number of distinct sources among a group's entries (`len(set(...))`). -/
def distinctSourceCount (entries : List Entry) : Nat :=
  ((entries.map Entry.source).dedup).length

/-- The group loop of `find_matching_markets`: `continue` on groups with fewer
than two distinct sources, append the aggregate when `_aggregate_entries`
returns one. -/
def aggregatedGroups : List (String × List Entry) → List AggregatedMarket
  | [] => []
  | ne :: rest =>
    if distinctSourceCount ne.2 < 2 then aggregatedGroups rest
    else
      match aggregate_entries ne.1 ne.2 with
      | some agg => agg :: aggregatedGroups rest
      | none => aggregatedGroups rest

/-- `MarketAggregator.find_matching_markets`: keep groups spanning at least two
sources, aggregate each, sort by descending `arbitrage_spread` (Python's
`list.sort(key=…, reverse=True)` is a stable descending sort). -/
def find_matching_markets (results : List (String × List AggMarket)) :
    List AggregatedMarket :=
  (aggregatedGroups (buildNameIndex results)).mergeSort
    fun a b => b.arbitrage_spread ≤ a.arbitrage_spread

/-- `MarketAggregator.detect_arbitrage(min_spread=0.02)`. -/
def detect_arbitrage (results : List (String × List AggMarket))
    (min_spread : ℚ := 1/50) : List AggregatedMarket :=
  (find_matching_markets results).filter fun m => min_spread ≤ m.arbitrage_spread

/-! ## Backfill fetch tasks (`backfill.py:BackfillJob.fetch_source_data`)

A task's interactions with the outside world are made explicit: the adapter
call `client.get_political_markets()` is an `Except` value (its exception or
its market list), and each data-table store write inside the `for` loop may
raise according to an injected failure schedule (indexed by the number of
data-table writes already attempted; a raising call leaves the store unchanged
since `_get_connection` rolls the connection back on exception).  Checkpoint
updates are modelled as non-raising.  The `try/except` of the source is the
`Option PyExc` component threaded out of the loop: `some e` is an in-flight
exception that the handler turns into a `failed` checkpoint. -/

/-- A Python exception as the handler reads it: type name and `str(e)`. -/
structure PyExc where
  name : String
  text : String
deriving Repr, DecidableEq

/-- `f"{type(e).__name__}: {str(e)}"`. -/
def excMsg (e : PyExc) : String := e.name ++ ": " ++ e.text

/-- The `stats` dict of `fetch_source_data`. -/
structure FetchStats where
  fetched : Nat
  inserted : Nat
  updated : Nat
  deduped : Nat
  error : Option String
deriving Repr, DecidableEq

/-- The zero-initialised `stats` dict. -/
def FetchStats.init : FetchStats :=
  { fetched := 0, inserted := 0, updated := 0, deduped := 0, error := none }

/-- A contract record as returned by a source adapter (§6 interface). -/
structure ContractRec where
  contract_id : String
  contract_name : String
  yes_price : Option ℚ
  no_price : Option ℚ
  yes_bid : Option ℚ
  yes_ask : Option ℚ
  volume : Option ℚ
  last_updated : Option String
deriving Repr, DecidableEq

/-- A market record as returned by a source adapter (status already converted
to a string by `fetch_source_data`). -/
structure MarketRec where
  market_id : String
  market_name : String
  category : Option String
  status : String
  url : Option String
  total_volume : Option ℚ
  contracts : List ContractRec
deriving Repr, DecidableEq

/-- Stand-in for `json.dumps` of the `raw_data` dict built per snapshot. -/
def rawJsonOf (market_name contract_name : String) (last_updated : Option String) : String :=
  String.intercalate "," [market_name, contract_name, last_updated.getD ""]

/-- The inner `for contract in market.contracts` loop: one `upsert_contract`
and one `upsert_price_snapshot` per contract, counting `inserted`/`deduped`
from the snapshot's `was_inserted`.  Returns the store, stats, next write
index, and the in-flight exception if a write raised. -/
def processContracts (sched : Nat → Option PyExc) (source market_id market_name : String)
    (snapshot_time now : String) :
    List ContractRec → Store → FetchStats → Nat → Store × FetchStats × Nat × Option PyExc
  | [], st, stats, idx => (st, stats, idx, none)
  | c :: cs, st, stats, idx =>
    match sched idx with
    | some e => (st, stats, idx, some e)
    | none =>
      let st1 := (upsert_contract st now source market_id c.contract_id c.contract_name none).1
      match sched (idx + 1) with
      | some e => (st1, stats, idx + 1, some e)
      | none =>
        let r := upsert_price_snapshot st1 now source market_id c.contract_id snapshot_time
          c.yes_price c.no_price c.yes_bid c.yes_ask c.volume
          (some (rawJsonOf market_name c.contract_name c.last_updated))
        let stats1 := if r.2.2 then { stats with inserted := stats.inserted + 1 }
          else { stats with deduped := stats.deduped + 1 }
        processContracts sched source market_id market_name snapshot_time now cs r.1 stats1 (idx + 2)

/-- The outer `for market in markets` loop: count `fetched`, `upsert_market`,
then process the market's contracts; stop at the first raising write. -/
def processMarkets (sched : Nat → Option PyExc) (source snapshot_time now : String) :
    List MarketRec → Store → FetchStats → Nat → Store × FetchStats × Nat × Option PyExc
  | [], st, stats, idx => (st, stats, idx, none)
  | m :: ms, st, stats, idx =>
    let stats0 := { stats with fetched := stats.fetched + 1 }
    match sched idx with
    | some e => (st, stats0, idx, some e)
    | none =>
      let st1 := (upsert_market st now source m.market_id m.market_name m.category
        (some m.status) m.url m.total_volume none).1
      match processContracts sched source m.market_id m.market_name snapshot_time now
          m.contracts st1 stats0 (idx + 1) with
      | (st2, stats2, idx2, some e) => (st2, stats2, idx2, some e)
      | (st2, stats2, idx2, none) =>
        processMarkets sched source snapshot_time now ms st2 stats2 idx2

/-- The `try` block of `fetch_source_data`: mark the checkpoint `running`,
resolve the adapter fetch, run the upsert loop. -/
def tryFetchAndStore (fetchResult : Except PyExc (List MarketRec))
    (sched : Nat → Option PyExc) (source snapshot_time now : String)
    (checkpoint_id : Nat) (st : Store) : Store × FetchStats × Option PyExc :=
  let st1 := update_sync_checkpoint st now checkpoint_id (some "running")
    none none none none none
  match fetchResult with
  | .error e => (st1, FetchStats.init, some e)
  | .ok markets =>
    match processMarkets sched source snapshot_time now markets st1 FetchStats.init 0 with
    | (st2, stats, _, exc) => (st2, stats, exc)

/-- `BackfillJob.fetch_source_data`: the missing-client early return, the `try`
block, and the `except` handler that marks the checkpoint `failed` with
`excMsg` and the partial counts, sets `stats['error']` and returns the stats
dict normally.  On a clean run the checkpoint is marked `completed` with the
final counts. -/
def fetch_source_data (hasClient : Bool) (fetchResult : Except PyExc (List MarketRec))
    (sched : Nat → Option PyExc) (source snapshot_time now : String)
    (checkpoint_id : Nat) (st : Store) : Store × FetchStats :=
  if hasClient = false then
    (st, { FetchStats.init with error := some ("No client for " ++ source) })
  else
    match tryFetchAndStore fetchResult sched source snapshot_time now
        checkpoint_id st with
    | (st2, stats, none) =>
      (update_sync_checkpoint st2 now checkpoint_id (some "completed")
        (some stats.fetched) (some stats.inserted) (some stats.updated)
        (some stats.deduped) none, stats)
    | (st2, stats, some e) =>
      (update_sync_checkpoint st2 now checkpoint_id (some "failed")
        (some stats.fetched) (some stats.inserted) (some stats.updated)
        (some stats.deduped) (some (excMsg e)),
       { stats with error := some (excMsg e) })

/-- One pending task of `run_backfill`'s batch, with its environment. -/
structure Task where
  source : String
  hasClient : Bool
  fetchResult : Except PyExc (List MarketRec)
  sched : Nat → Option PyExc
  snapshot_time : String
  checkpoint_id : Nat

/-- The batch of `run_backfill`: every pending task executes (worker-pool
interleaving is irrelevant to checkpoint outcomes since each task touches only
its own checkpoint row; the embedding runs them in sequence). -/
def runTasks (now : String) : List Task → Store → Store
  | [], st => st
  | t :: ts, st =>
    runTasks now ts (fetch_source_data t.hasClient t.fetchResult t.sched t.source
      t.snapshot_time now t.checkpoint_id st).1

/-! ## Statement traces of the upserts (`storage.py`, for the atomicity claim)

What the spec calls "a single atomic insert, on conflict update operation" is a
property of the statement sequence an upsert sends to the database.  The trace
of each upsert is translated from the source: a `SELECT` by the identity key
followed by either an `UPDATE` by the same key or a plain `INSERT`. -/

/-- Kinds of SQL statements relevant to the upsert implementations. -/
inductive SqlStmt
  | selectByKey
  | updateByKey
  | insertRow
  | insertOnConflictUpdate
deriving Repr, DecidableEq

/-- The statements `upsert_market` executes against a given table state. -/
def upsertMarketStmts (markets : List MarketRow) (source market_id : String) : List SqlStmt :=
  match markets.find? (marketKeyP source market_id) with
  | some _ => [.selectByKey, .updateByKey]
  | none => [.selectByKey, .insertRow]

/-- The statements `upsert_price_snapshot` executes against a given table state. -/
def upsertSnapshotStmts (snapshots : List SnapshotRow)
    (source market_id contract_id snapshot_time : String) : List SqlStmt :=
  match snapshots.find? (snapshotKeyP source market_id contract_id snapshot_time) with
  | some _ => [.selectByKey, .updateByKey]
  | none => [.selectByKey, .insertRow]

/-- Modelled from the spec: "implemented as a single atomic 'insert, on
conflict update' operation against the identity key's unique constraint —
never a separate read-then-write race". -/
def isSingleAtomicUpsert (stmts : List SqlStmt) : Prop :=
  stmts = [SqlStmt.insertOnConflictUpdate]

/-- A plain `INSERT` as SQLite executes it: rejected with an `IntegrityError`
when a row with the same identity key already exists (the `UNIQUE` constraint),
appended otherwise. -/
def insertMarketChecked (markets : List MarketRow) (row : MarketRow) :
    Except String (List MarketRow) :=
  if markets.any (marketKeyP row.source row.market_id) then
    Except.error "IntegrityError: UNIQUE constraint failed: markets.source, markets.market_id"
  else Except.ok (markets ++ [row])

/-! ## Concrete inputs used by the claims -/

/-- The two-source fetch result of the spec's concrete arbitrage example:
source X quotes `yes=0.30` (no NO quote), source Y quotes `yes=0.45, no=0.52`,
on the two market names of the matching example. -/
def specExampleResults : List (String × List AggMarket) :=
  [("X", [{ market_name := "Trump to Win the 2028 Presidential Election",
            contracts := [{ contract_name := "", yes_price := some (3/10),
                            no_price := none, volume := none }] }]),
   ("Y", [{ market_name := "Trump Wins Presidential Election",
            contracts := [{ contract_name := "", yes_price := some (9/20),
                            no_price := some (13/25), volume := none }] }])]

/-- The entry list of that example as `_aggregate_entries` receives it. -/
def specExampleEntries : List Entry :=
  [{ source := "X", yes_price := some (3/10), no_price := none, volume := none },
   { source := "Y", yes_price := some (9/20), no_price := some (13/25), volume := none }]

/-- Market row written by the first caller of the same-key race. -/
def raceRowA : MarketRow :=
  { id := 1, source := "PredictIt", market_id := "m1", market_name := "A",
    category := none, status := none, url := none, total_volume := none,
    end_date := none, created_at := "t0", updated_at := "t0" }

/-- Market row the second caller of the same-key race tries to insert. -/
def raceRowB : MarketRow :=
  { raceRowA with id := 2, market_name := "B" }

/-! ## Theorems -/

/-- Claim C6: `_normalize_name` maps "Trump to Win the 2028 Presidential
Election" and "Trump Wins Presidential Election" to the same key (`"trump"`),
so the two entries land in a single matching group of the name index. -/
theorem C6_normalization_same_key :
    normalize_name "Trump to Win the 2028 Presidential Election" =
      normalize_name "Trump Wins Presidential Election" ∧
    normalize_name "Trump to Win the 2028 Presidential Election" = "trump" ∧
    (buildNameIndex specExampleResults).map Prod.fst = ["trump"] ∧
    (buildNameIndex specExampleResults).map (fun g => g.2.map Entry.source) = [["X", "Y"]] := by
  refine ⟨rfl, rfl, rfl, rfl⟩

/-- Claim C4 (evidence of divergence): on an empty table the upserts execute a
`SELECT` followed by a plain `INSERT` — two statements, not one atomic
insert-on-conflict-update — and in the read-read-write-write interleaving of
two same-key callers both reads see no row, the first caller's `INSERT`
succeeds and the second caller's `INSERT` is rejected by the `UNIQUE`
constraint instead of becoming an update. -/
theorem C4_upserts_are_read_then_write :
    upsertMarketStmts [] "PredictIt" "m1" = [SqlStmt.selectByKey, SqlStmt.insertRow] ∧
    ¬ isSingleAtomicUpsert (upsertMarketStmts [] "PredictIt" "m1") ∧
    upsertSnapshotStmts [] "PredictIt" "m1" "c1" "2025-08-01" =
      [SqlStmt.selectByKey, SqlStmt.insertRow] ∧
    ¬ isSingleAtomicUpsert (upsertSnapshotStmts [] "PredictIt" "m1" "c1" "2025-08-01") ∧
    ([] : List MarketRow).find? (marketKeyP "PredictIt" "m1") = none ∧
    insertMarketChecked [] raceRowA = Except.ok [raceRowA] ∧
    insertMarketChecked [raceRowA] raceRowB =
      Except.error
        "IntegrityError: UNIQUE constraint failed: markets.source, markets.market_id" := by
  refine ⟨rfl, ?_, rfl, ?_, rfl, rfl, rfl⟩ <;>
    · intro h
      simp [isSingleAtomicUpsert, upsertMarketStmts, upsertSnapshotStmts, List.find?] at h

/-- The `prices` list of the spec's concrete example: X's missing NO quote is
derived as `1 - 0.30 = 0.70`. -/
lemma spec_example_pricesOf :
    pricesOf specExampleEntries = [("X", 3/10, 7/10), ("Y", 9/20, 13/25)] := by
  norm_num [pricesOf, specExampleEntries, entryYes, entryNo, pyOr]

/-- Aggregating the spec's concrete example: `best_no = 0.70`, spread `0`. -/
lemma spec_example_aggregate :
    aggregate_entries "trump" specExampleEntries =
      some { canonical_name := "trump", source_names := ["X", "Y"],
             best_yes_price := 9/20, best_no_price := 7/10,
             best_yes_source := "Y", best_no_source := "X",
             arbitrage_spread := 0, total_volume := 0 } := by
  rw [aggregate_entries, spec_example_pricesOf]
  norm_num [pyMaxBy, pyMinYes, sourceNamesOf, totalVolumeOf, specExampleEntries]
  decide

/-- The spec's concrete example group is absent from the default-threshold
report. -/
lemma spec_example_detect : detect_arbitrage specExampleResults (1/50) = [] := by
  have hbi : buildNameIndex specExampleResults = [("trump", specExampleEntries)] := by rfl
  have hdc : distinctSourceCount specExampleEntries = 2 := by decide
  rw [detect_arbitrage, find_matching_markets, hbi]
  rw [aggregatedGroups, hdc, spec_example_aggregate]
  norm_num [aggregatedGroups, List.mergeSort_singleton]

/-- Claim C5 (counterexample to the concrete part): in the spec's example the
missing NO quote of source X is derived as `1 - 0.30 = 0.70`, so `best_no` is
`0.70` (not `0.52`), the spread is `(1 - 0.70) - 0.30 = 0` (not `0.18`), and
the group does not appear in the default-threshold report at all. -/
theorem C5_spec_example_refuted :
    (aggregate_entries "trump" specExampleEntries).map AggregatedMarket.best_no_price =
      some (7/10) ∧
    (aggregate_entries "trump" specExampleEntries).map AggregatedMarket.best_no_price ≠
      some (13/25) ∧
    (aggregate_entries "trump" specExampleEntries).map AggregatedMarket.arbitrage_spread =
      some 0 ∧
    (aggregate_entries "trump" specExampleEntries).map AggregatedMarket.arbitrage_spread ≠
      some (9/50) ∧
    detect_arbitrage specExampleResults (1/50) = [] := by
  refine ⟨?_, ?_, ?_, ?_, spec_example_detect⟩ <;> rw [spec_example_aggregate]
  · rfl
  · norm_num
  · rfl
  · norm_num

/-- Outside the loop guard (`current ≥ end_date`) no window is produced. -/
lemma gwAux_of_not_lt (fuel cur e size : Nat) (h : ¬ cur < e) :
    gwAux fuel cur e size = [] := by
  cases fuel <;> simp [gwAux, h]

/-- Loop invariant of `generate_windows`: given sufficient fuel and a positive
window size, the produced windows start at `cur`, are chained end-to-start,
end at `e`, have length `size` except for a final truncated window, and cover
exactly `[cur, e)` without overlap. -/
lemma gwAux_invariant (size : Nat) (hs : 0 < size) :
    ∀ fuel cur e, e - cur ≤ fuel →
      (cur < e → ∃ rest, gwAux fuel cur e size = (cur, min (cur + size) e) :: rest) ∧
      List.Chain' (fun p q : Nat × Nat => p.2 = q.1) (gwAux fuel cur e size) ∧
      (cur < e → ((gwAux fuel cur e size).getLast?).map Prod.snd = some e) ∧
      (∀ w ∈ gwAux fuel cur e size,
          cur ≤ w.1 ∧ w.1 < w.2 ∧ w.2 ≤ e ∧ w.2 - w.1 ≤ size ∧
            (w.2 = e ∨ w.2 - w.1 = size)) ∧
      (∀ x, (cur ≤ x ∧ x < e) ↔ ∃ w ∈ gwAux fuel cur e size, w.1 ≤ x ∧ x < w.2) ∧
      List.Pairwise (fun p q : Nat × Nat => p.2 ≤ q.1) (gwAux fuel cur e size) := by
  intro fuel
  induction fuel with
  | zero =>
    intro cur e hf
    have he : ¬ cur < e := by omega
    refine ⟨fun h => absurd h he, by simp [gwAux], fun h => absurd h he, ?_, ?_, ?_⟩
    · intro w hw; simp [gwAux] at hw
    · intro x; simp [gwAux]; omega
    · simp [gwAux]
  | succ fuel ih =>
    intro cur e hf
    by_cases hlt : cur < e
    · have hstep : gwAux (fuel + 1) cur e size =
          (cur, min (cur + size) e) :: gwAux fuel (min (cur + size) e) e size := by
        simp [gwAux, hlt]
      have hcurm : cur < min (cur + size) e := lt_min (by omega) hlt
      have hme : min (cur + size) e ≤ e := min_le_right _ _
      have hmle : min (cur + size) e ≤ cur + size := min_le_left _ _
      have hfm : e - min (cur + size) e ≤ fuel := by omega
      obtain ⟨ih1, ih2, ih3, ih4, ih5, ih6⟩ := ih (min (cur + size) e) e hfm
      have hmin_cases : min (cur + size) e = cur + size ∨ min (cur + size) e = e := by
        rw [Nat.min_def]; split <;> simp
      rw [hstep]
      by_cases hm_e : min (cur + size) e < e
      · obtain ⟨rest, hrest⟩ := ih1 hm_e
        refine ⟨fun _ => ⟨_, rfl⟩, ?_, ?_, ?_, ?_, ?_⟩
        · rw [hrest]
          exact List.Chain'.cons rfl (hrest ▸ ih2)
        · intro _
          have h3 := ih3 hm_e
          rw [hrest] at h3 ⊢
          simpa using h3
        · intro w hw
          rcases List.mem_cons.mp hw with h | h
          · subst h
            exact ⟨le_refl _, hcurm, hme, by omega, by omega⟩
          · obtain ⟨hw1, hw2, hw3, hw4, hw5⟩ := ih4 w h
            exact ⟨by omega, hw2, hw3, hw4, hw5⟩
        · intro x
          constructor
          · rintro ⟨hcx, hxe⟩
            by_cases hxm : x < min (cur + size) e
            · exact ⟨(cur, min (cur + size) e), List.mem_cons_self _ _, hcx, hxm⟩
            · obtain ⟨w, hw, hw1, hw2⟩ := (ih5 x).mp ⟨by omega, hxe⟩
              exact ⟨w, List.mem_cons_of_mem _ hw, hw1, hw2⟩
          · rintro ⟨w, hw, hw1, hw2⟩
            rcases List.mem_cons.mp hw with h | h
            · subst h
              exact ⟨hw1, by omega⟩
            · have := (ih5 x).mpr ⟨w, h, hw1, hw2⟩
              exact ⟨by omega, this.2⟩
        · rw [List.pairwise_cons]
          exact ⟨fun w hw => (ih4 w hw).1, ih6⟩
      · have hme' : min (cur + size) e = e := by omega
        have hnil : gwAux fuel (min (cur + size) e) e size = [] :=
          gwAux_of_not_lt _ _ _ _ hm_e
        rw [hnil]
        refine ⟨fun _ => ⟨[], rfl⟩, by simp, fun _ => by simp [hme'], ?_, ?_, by simp⟩
        · intro w hw
          rcases List.mem_cons.mp hw with h | h
          · subst h
            exact ⟨le_refl _, hcurm, hme, by omega, Or.inl hme'⟩
          · simp at h
        · intro x
          simp only [List.mem_singleton]
          constructor
          · rintro ⟨hcx, hxe⟩
            exact ⟨(cur, min (cur + size) e), rfl, hcx, by omega⟩
          · rintro ⟨w, hw, hw1, hw2⟩
            subst hw
            exact ⟨hw1, by omega⟩
    · rw [gwAux_of_not_lt _ _ _ _ hlt]
      refine ⟨fun h => absurd h hlt, by simp, fun h => absurd h hlt, ?_, ?_, by simp⟩
      · intro w hw; simp at hw
      · intro x; simp; omega

/-- Claim C2: for `start < end` and positive window size, `generate_windows`
returns an ordered list of half-open intervals: the first begins at `start`,
consecutive intervals are contiguous (each begins where the previous ends) and
non-overlapping, the last ends exactly at `end`, every interval is nonempty of
length at most `size` and of length exactly `size` unless it is the one ending
at `end`, and the union of the intervals is exactly `[start, end)`; concretely,
`generate_windows D0 D7 2d` is `[D0,D2), [D2,D4), [D4,D6), [D6,D7)`. -/
theorem C2_generate_windows_cover (start_date end_date window_size : Nat)
    (h1 : start_date < end_date) (h2 : 0 < window_size) :
    (∃ rest, generate_windows start_date end_date window_size =
        (start_date, min (start_date + window_size) end_date) :: rest) ∧
    List.Chain' (fun p q : Nat × Nat => p.2 = q.1)
      (generate_windows start_date end_date window_size) ∧
    ((generate_windows start_date end_date window_size).getLast?).map Prod.snd =
      some end_date ∧
    (∀ w ∈ generate_windows start_date end_date window_size,
        w.1 < w.2 ∧ w.2 ≤ end_date ∧ w.2 - w.1 ≤ window_size ∧
          (w.2 = end_date ∨ w.2 - w.1 = window_size)) ∧
    (∀ x, (start_date ≤ x ∧ x < end_date) ↔
        ∃ w ∈ generate_windows start_date end_date window_size, w.1 ≤ x ∧ x < w.2) ∧
    List.Pairwise (fun p q : Nat × Nat => p.2 ≤ q.1)
      (generate_windows start_date end_date window_size) ∧
    generate_windows 0 7 2 = [(0, 2), (2, 4), (4, 6), (6, 7)] := by
  obtain ⟨i1, i2, i3, i4, i5, i6⟩ :=
    gwAux_invariant window_size h2 (end_date - start_date) start_date end_date (le_refl _)
  exact ⟨i1 h1, i2, i3 h1, fun w hw => ⟨(i4 w hw).2.1, (i4 w hw).2.2.1, (i4 w hw).2.2.2.1,
    (i4 w hw).2.2.2.2⟩, i5, i6, rfl⟩

/-- Witness for C2 at the spec's concrete instance `D0..D7` with a two-day
window. -/
theorem C2_generate_windows_cover_witness :
    0 < 7 ∧ 0 < 2 ∧ generate_windows 0 7 2 = [(0, 2), (2, 4), (4, 6), (6, 7)] :=
  ⟨by decide, by decide,
    (C2_generate_windows_cover 0 7 2 (by decide) (by decide)).2.2.2.2.2.2⟩

/-! ## Keyed-list lemmas for the upsert proofs -/

/-- The identity key of a snapshot row. -/
def snapKey (r : SnapshotRow) : String × String × String × String :=
  (r.source, r.market_id, r.contract_id, r.snapshot_time)

/-- The key predicate holds exactly on rows with the given identity key. -/
lemma snapshotKeyP_iff {s m c t : String} {r : SnapshotRow} :
    snapshotKeyP s m c t r = true ↔ snapKey r = (s, m, c, t) := by
  simp [snapshotKeyP, snapKey, Prod.ext_iff]

/-- A guarded row update (`UPDATE … WHERE p`) that keeps `p` satisfied does not
change how many rows satisfy `p`. -/
lemma length_filter_map_guard {α} (p : α → Bool) (f : α → α)
    (hf : ∀ a, p a = true → p (f a) = true) (l : List α) :
    ((l.map fun a => if p a then f a else a).filter p).length = (l.filter p).length := by
  induction l with
  | nil => simp
  | cons a l ih =>
    by_cases h : p a = true
    · simp [h, hf a h, ih]
    · simp only [Bool.not_eq_true] at h
      simp [h, ih]

/-- `find?` commutes with a guarded row update that keeps `p` satisfied. -/
lemma find?_map_guard {α} (p : α → Bool) (f : α → α)
    (hf : ∀ a, p a = true → p (f a) = true) (l : List α) :
    (l.map fun a => if p a then f a else a).find? p =
      (l.find? p).map fun a => if p a then f a else a := by
  induction l with
  | nil => simp
  | cons x l ih =>
    by_cases h : p x = true
    · simp [List.find?_cons_of_pos _ h, h, hf x h,
        List.find?_cons_of_pos _ (hf x h)]
    · simp only [Bool.not_eq_true] at h
      simp [List.find?_cons, h, ih]

/-- Appending a row that satisfies `p` to a list with no `p`-row makes it the
`find?` result. -/
lemma find?_append_none {α} {p : α → Bool} {l : List α} {x : α}
    (h : l.find? p = none) (hx : p x = true) : (l ++ [x]).find? p = some x := by
  rw [List.find?_append, h, List.find?_cons_of_pos _ hx]
  rfl

/-- Claim C1: from a store whose snapshot table satisfies the unique-key
constraint, two consecutive `upsert_price_snapshot` calls with the same
identity key and the same values leave exactly one row with that key; the
first call reports `was_inserted = true` when no row with the key previously
existed, and the second call returns the same row id with
`was_inserted = false`. -/
theorem C1_upsert_price_snapshot_idempotent (st : Store)
    (now1 now2 s m c t : String) (y n b a v : Option ℚ) (raw : Option String)
    (hu : st.snapshots.Pairwise fun r1 r2 => snapKey r1 ≠ snapKey r2) :
    ((upsert_price_snapshot (upsert_price_snapshot st now1 s m c t y n b a v raw).1
        now2 s m c t y n b a v raw).1.snapshots.filter (snapshotKeyP s m c t)).length = 1 ∧
    ((∀ r ∈ st.snapshots, snapKey r ≠ (s, m, c, t)) →
      (upsert_price_snapshot st now1 s m c t y n b a v raw).2.2 = true) ∧
    (upsert_price_snapshot (upsert_price_snapshot st now1 s m c t y n b a v raw).1
        now2 s m c t y n b a v raw).2.1 =
      (upsert_price_snapshot st now1 s m c t y n b a v raw).2.1 ∧
    (upsert_price_snapshot (upsert_price_snapshot st now1 s m c t y n b a v raw).1
        now2 s m c t y n b a v raw).2.2 = false := by
  have hf : ∀ r : SnapshotRow, snapshotKeyP s m c t r = true →
      snapshotKeyP s m c t
        ({ r with yes_price := y, no_price := n, yes_bid := b, yes_ask := a,
                  volume := v, raw_data := raw }) = true := fun r hr => hr
  cases hfind : st.snapshots.find? (snapshotKeyP s m c t) with
  | none =>
    have hnone := List.find?_eq_none.mp hfind
    have hp_nr : snapshotKeyP s m c t
        ({ id := st.nextSnapshotId, source := s, market_id := m, contract_id := c,
           snapshot_time := t, yes_price := y, no_price := n, yes_bid := b, yes_ask := a,
           volume := v, raw_data := raw, created_at := now1 }) = true := by
      simp [snapshotKeyP]
    have hfind2 := find?_append_none hfind hp_nr
    simp only [upsert_price_snapshot, hfind, hfind2]
    refine ⟨?_, by simp, by simp, by simp⟩
    rw [length_filter_map_guard _ _ hf]
    rw [List.filter_append]
    rw [List.filter_eq_nil_iff.mpr hnone]
    simp [hp_nr]
  | some ex =>
    obtain ⟨hpex, as, bs, hsplit, has⟩ := List.find?_eq_some.mp hfind
    have hfind2 : ((st.snapshots.map fun r =>
        if snapshotKeyP s m c t r then
          { r with yes_price := y, no_price := n, yes_bid := b,
                   yes_ask := a, volume := v, raw_data := raw }
        else r).find? (snapshotKeyP s m c t)) =
        some (if snapshotKeyP s m c t ex then
          { ex with yes_price := y, no_price := n, yes_bid := b,
                    yes_ask := a, volume := v, raw_data := raw }
        else ex) := by
      rw [find?_map_guard _ _ hf, hfind]
      rfl
    simp only [upsert_price_snapshot, hfind, hfind2]
    have hexmem : ex ∈ st.snapshots := by
      rw [hsplit]; exact List.mem_append_right _ (List.mem_cons_self _ _)
    refine ⟨?_, ?_, ?_, by simp⟩
    · rw [length_filter_map_guard _ _ hf, length_filter_map_guard _ _ hf]
      have hubs : ∀ x ∈ bs, ¬ snapshotKeyP s m c t x = true := by
        have hp := hsplit ▸ hu
        rcases List.pairwise_cons.mp (List.pairwise_append.mp hp).2.1 with ⟨hexbs, _⟩
        intro x hx hpx
        exact hexbs x hx (by rw [snapshotKeyP_iff.mp hpex, snapshotKeyP_iff.mp hpx])
      rw [hsplit, List.filter_append]
      rw [List.filter_eq_nil_iff.mpr (by intro x hx; simpa using has x hx)]
      rw [List.filter_cons_of_pos hpex, List.filter_eq_nil_iff.mpr hubs]
      rfl
    · intro h
      exact absurd (snapshotKeyP_iff.mp hpex) (h ex hexmem)
    · simp [hpex]

/-- The natural key of a checkpoint row. -/
def cpKey (r : CheckpointRow) : String × String × String × String :=
  (r.source, r.sync_type, r.window_start, r.window_end)

/-- The checkpoint key predicate holds exactly on rows with the given key. -/
lemma checkpointKeyP_iff {s ty ws we : String} {r : CheckpointRow} :
    checkpointKeyP s ty ws we r = true ↔ cpKey r = (s, ty, ws, we) := by
  simp [checkpointKeyP, cpKey, Prod.ext_iff]

/-- In a list that is pairwise `R`-separated, a member satisfying `p` is the
`find?` result whenever `R`-related elements cannot both satisfy `p`. -/
lemma find?_eq_some_of_unique {α} {p : α → Bool} {R : α → α → Prop} {l : List α} {x : α}
    (hu : l.Pairwise R) (hx : x ∈ l) (hpx : p x = true)
    (h : ∀ a b, R a b → p a = true → p b = true → False) :
    l.find? p = some x := by
  induction l with
  | nil => cases hx
  | cons a l ih =>
    rcases List.pairwise_cons.mp hu with ⟨ha, hu1⟩
    rcases List.mem_cons.mp hx with rfl | hx1
    · exact List.find?_cons_of_pos _ hpx
    · have hpa : p a = false := by
        by_contra hc
        simp only [Bool.not_eq_false] at hc
        exact h a x (ha x hx1) hc hpx
      rw [List.find?_cons_of_neg _ (by simp [hpa]), ih hu1 hx1]

/-- Claim C3: `create_sync_checkpoint` on a store with unique checkpoint keys:
an existing `completed` row is returned by id with the store entirely
unchanged; an existing row in any other status is returned by id after being
reset to `pending` with all four counters zeroed and `started_at`,
`completed_at`, `error_message` cleared (all other columns and all other rows
untouched); a missing key makes it insert a fresh `pending` row and return its
id. -/
theorem C3_create_sync_checkpoint_state_machine (st : Store) (now s ty ws we : String)
    (hu : st.checkpoints.Pairwise fun r1 r2 => cpKey r1 ≠ cpKey r2) :
    (∀ ex ∈ st.checkpoints, cpKey ex = (s, ty, ws, we) →
      (ex.status = "completed" → create_sync_checkpoint st now s ty ws we = (st, ex.id)) ∧
      (ex.status ≠ "completed" →
        (create_sync_checkpoint st now s ty ws we).2 = ex.id ∧
        (create_sync_checkpoint st now s ty ws we).1.checkpoints.length =
          st.checkpoints.length ∧
        ∀ i (hi : i < st.checkpoints.length)
            (hi2 : i < (create_sync_checkpoint st now s ty ws we).1.checkpoints.length),
          (st.checkpoints[i].id ≠ ex.id →
            (create_sync_checkpoint st now s ty ws we).1.checkpoints[i] =
              st.checkpoints[i]) ∧
          (st.checkpoints[i].id = ex.id →
            (create_sync_checkpoint st now s ty ws we).1.checkpoints[i] =
              ({ st.checkpoints[i] with status := "pending", started_at := none,
                                        completed_at := none, records_fetched := 0,
                                        records_inserted := 0, records_updated := 0,
                                        records_deduped := 0,
                                        error_message := none })))) ∧
    ((∀ r ∈ st.checkpoints, cpKey r ≠ (s, ty, ws, we)) →
      (create_sync_checkpoint st now s ty ws we).2 = st.nextCheckpointId ∧
      ∃ nr, (create_sync_checkpoint st now s ty ws we).1.checkpoints =
          st.checkpoints ++ [nr] ∧
        nr.id = st.nextCheckpointId ∧ nr.status = "pending" ∧
        cpKey nr = (s, ty, ws, we) ∧ nr.records_fetched = 0 ∧ nr.records_inserted = 0 ∧
        nr.records_updated = 0 ∧ nr.records_deduped = 0 ∧ nr.started_at = none ∧
        nr.completed_at = none ∧ nr.error_message = none ∧ nr.created_at = now) := by
  constructor
  · intro ex hex hkey
    have hfind : st.checkpoints.find? (checkpointKeyP s ty ws we) = some ex :=
      find?_eq_some_of_unique hu hex (checkpointKeyP_iff.mpr hkey)
        (fun a b hab hpa hpb => hab (by rw [checkpointKeyP_iff.mp hpa, checkpointKeyP_iff.mp hpb]))
    constructor
    · intro hc
      simp [create_sync_checkpoint, hfind, hc]
    · intro hnc
      simp only [create_sync_checkpoint, hfind, if_neg hnc]
      refine ⟨by simp, by simp, ?_⟩
      intro i hi hi2
      constructor
      · intro hne
        simp only [List.getElem_map]
        rw [if_neg hne]
      · intro heq
        simp only [List.getElem_map]
        rw [if_pos heq]
        rfl
  · intro hall
    have hfind : st.checkpoints.find? (checkpointKeyP s ty ws we) = none :=
      List.find?_eq_none.mpr fun r hr hp => hall r hr (checkpointKeyP_iff.mp hp)
    simp only [create_sync_checkpoint, hfind]
    refine ⟨by simp,
      ⟨st.nextCheckpointId, s, ty, ws, we, "pending", 0, 0, 0, 0, none, none, none, now⟩,
      ?_, ?_, ?_, ?_, ?_, ?_, ?_, ?_, ?_, ?_, ?_, ?_⟩ <;> simp [cpKey]

/-- A checkpoint row that completed successfully, for the C3 witness. -/
def cpRowDone : CheckpointRow :=
  { id := 5, source := "PredictIt", sync_type := "backfill", window_start := "W0",
    window_end := "W1", status := "completed", records_fetched := 7,
    records_inserted := 3, records_updated := 0, records_deduped := 4,
    error_message := none, started_at := some "T1", completed_at := some "T2",
    created_at := "T0" }

/-- A store holding exactly the completed checkpoint row. -/
def stDone : Store := { Store.empty with checkpoints := [cpRowDone] }

/-- Witness for C3: a completed row is returned unchanged by id, and on the
empty store a fresh id is handed out. -/
theorem C3_create_sync_checkpoint_state_machine_witness :
    create_sync_checkpoint stDone "T3" "PredictIt" "backfill" "W0" "W1" = (stDone, 5) ∧
    (create_sync_checkpoint Store.empty "T0" "PredictIt" "backfill" "W0" "W1").2 =
      Store.empty.nextCheckpointId :=
  ⟨((C3_create_sync_checkpoint_state_machine stDone "T3" "PredictIt" "backfill" "W0" "W1"
      (by simp [stDone])).1 cpRowDone (by simp [stDone]) rfl).1 rfl,
   ((C3_create_sync_checkpoint_state_machine Store.empty "T0" "PredictIt" "backfill" "W0" "W1"
      (by simp [Store.empty])).2 (by simp [Store.empty])).1⟩

/-! ## The mutating operations of the `Storage` class, as one type -/

/-- Every state-mutating operation `storage.py` exposes (the remaining methods
are read-only queries and do not touch the tables). -/
inductive StorageOp
  | opUpsertMarket (source market_id market_name : String)
      (category status url : Option String) (total_volume : Option ℚ)
      (end_date : Option String)
  | opUpsertContract (source market_id contract_id contract_name : String)
      (short_name : Option String)
  | opUpsertSnapshot (source market_id contract_id snapshot_time : String)
      (yes_price no_price yes_bid yes_ask volume : Option ℚ) (raw_json : Option String)
  | opCreateCheckpoint (source sync_type window_start window_end : String)
  | opUpdateCheckpoint (checkpoint_id : Nat) (status : Option String)
      (records_fetched records_inserted records_updated records_deduped : Option Int)
      (error_message : Option String)

/-- Run a mutating storage operation against the store. -/
def StorageOp.apply : StorageOp → String → Store → Store
  | .opUpsertMarket s m mn cat stt url tv ed, now, st =>
    (upsert_market st now s m mn cat stt url tv ed).1
  | .opUpsertContract s m c cn sn, now, st => (upsert_contract st now s m c cn sn).1
  | .opUpsertSnapshot s m c t y n b a v raw, now, st =>
    (upsert_price_snapshot st now s m c t y n b a v raw).1
  | .opCreateCheckpoint s ty ws we, now, st => (create_sync_checkpoint st now s ty ws we).1
  | .opUpdateCheckpoint cid status rf ri ru rd em, now, st =>
    update_sync_checkpoint st now cid status rf ri ru rd em

/-- Row identity of a market row: primary key plus unique key. -/
def marketIdKey (r : MarketRow) : Nat × String × String := (r.id, r.source, r.market_id)

/-- Row identity of a contract row. -/
def contractIdKey (r : ContractRow) : Nat × String × String × String :=
  (r.id, r.source, r.market_id, r.contract_id)

/-- Row identity of a snapshot row. -/
def snapshotIdKey (r : SnapshotRow) : Nat × String × String × String × String :=
  (r.id, snapKey r)

/-- Row identity of a checkpoint row. -/
def checkpointIdKey (r : CheckpointRow) : Nat × String × String × String × String :=
  (r.id, cpKey r)

/-- Field-level behaviour of the `SET` clauses of `update_sync_checkpoint` on
one row: keys and `created_at` untouched, each counter and the error message
written only when supplied, a truthy status written with its timestamp
stamping. -/
lemma applyCheckpointUpdate_spec (now : String) (status : Option String)
    (rf ri ru rd : Option Int) (em : Option String) (r : CheckpointRow) :
    (applyCheckpointUpdate now status rf ri ru rd em r).id = r.id ∧
    (applyCheckpointUpdate now status rf ri ru rd em r).source = r.source ∧
    (applyCheckpointUpdate now status rf ri ru rd em r).sync_type = r.sync_type ∧
    (applyCheckpointUpdate now status rf ri ru rd em r).window_start = r.window_start ∧
    (applyCheckpointUpdate now status rf ri ru rd em r).window_end = r.window_end ∧
    (applyCheckpointUpdate now status rf ri ru rd em r).created_at = r.created_at ∧
    (applyCheckpointUpdate now status rf ri ru rd em r).records_fetched =
      (match rf with | none => r.records_fetched | some v => v) ∧
    (applyCheckpointUpdate now status rf ri ru rd em r).records_inserted =
      (match ri with | none => r.records_inserted | some v => v) ∧
    (applyCheckpointUpdate now status rf ri ru rd em r).records_updated =
      (match ru with | none => r.records_updated | some v => v) ∧
    (applyCheckpointUpdate now status rf ri ru rd em r).records_deduped =
      (match rd with | none => r.records_deduped | some v => v) ∧
    (applyCheckpointUpdate now status rf ri ru rd em r).error_message =
      (match em with | none => r.error_message | some v => some v) ∧
    (applyCheckpointUpdate now status rf ri ru rd em r).status =
      (match status with | none => r.status | some s => if s = "" then r.status else s) ∧
    (applyCheckpointUpdate now status rf ri ru rd em r).started_at =
      (match status with
        | none => r.started_at
        | some s => if s ≠ "" ∧ s = "running" then some now else r.started_at) ∧
    (applyCheckpointUpdate now status rf ri ru rd em r).completed_at =
      (match status with
        | none => r.completed_at
        | some s =>
          if s ≠ "" ∧ s ≠ "running" ∧ (s = "completed" ∨ s = "failed") then some now
          else r.completed_at) := by
  rcases status with _ | s <;> rcases rf with _ | v1 <;> rcases ri with _ | v2 <;>
    rcases ru with _ | v3 <;> rcases rd with _ | v4 <;> rcases em with _ | v5 <;>
    simp only [applyCheckpointUpdate] <;> (try split_ifs) <;> simp_all

/-- A guarded per-row update (`UPDATE … WHERE q`) that preserves a row's
identity preserves it at every position. -/
lemma keys_of_map_cond {a k : Type} (key : a → k) (q : a → Prop) [DecidablePred q]
    (f : a → a) (hpres : ∀ x, key (f x) = key x) (l : List a) (i : Nat)
    (hi : i < l.length) (hi2 : i < (l.map fun x => if q x then f x else x).length) :
    key ((l.map fun x => if q x then f x else x)[i]) = key l[i] := by
  simp only [List.getElem_map]
  by_cases h : q l[i] <;> simp [h, hpres]

/-- Appending a row (`INSERT`) keeps every existing row at its position. -/
lemma keys_of_append {a k : Type} (key : a → k) (l : List a) (x : a) (i : Nat)
    (hi : i < l.length) (hi2 : i < (l ++ [x]).length) :
    key ((l ++ [x])[i]) = key l[i] := by
  rw [List.getElem_append_left hi]

/-- The `SET` clauses of `update_sync_checkpoint` never change a row's
identity. -/
lemma applyCheckpointUpdate_idKey (now : String) (status : Option String)
    (rf ri ru rd : Option Int) (em : Option String) (r : CheckpointRow) :
    checkpointIdKey (applyCheckpointUpdate now status rf ri ru rd em r) =
      checkpointIdKey r := by
  obtain ⟨h1, h2, h3, h4, h5, _, _, _, _, _, _, _, _, _⟩ :=
    applyCheckpointUpdate_spec now status rf ri ru rd em r
  simp [checkpointIdKey, cpKey, h1, h2, h3, h4, h5]

/-- Claim C8: on an existing key, `upsert_market` rewrites exactly the mutable
columns (`market_name`, `category`, `status`, `url`, `total_volume`,
`end_date`, `updated_at`) of the matching row, keeps its `id`, `source`,
`market_id` and `created_at`, leaves rows with other keys and the other tables
untouched; and no mutating operation of the `Storage` class ever deletes a row
from any table (all four tables only keep or gain rows, each surviving row at
its position with its identity intact). -/
theorem C8_upsert_market_frame_and_never_deletes :
    (∀ st (now s m mn : String) cat stt url tv ed,
      ((upsert_market st now s m mn cat stt url tv ed).1.contracts = st.contracts ∧
       (upsert_market st now s m mn cat stt url tv ed).1.snapshots = st.snapshots ∧
       (upsert_market st now s m mn cat stt url tv ed).1.checkpoints = st.checkpoints) ∧
      ((∃ r ∈ st.markets, r.source = s ∧ r.market_id = m) →
        (upsert_market st now s m mn cat stt url tv ed).1.markets.length =
          st.markets.length ∧
        ∀ i (hi : i < st.markets.length)
            (hi2 : i < (upsert_market st now s m mn cat stt url tv ed).1.markets.length),
          ((upsert_market st now s m mn cat stt url tv ed).1.markets[i].id =
              st.markets[i].id ∧
           (upsert_market st now s m mn cat stt url tv ed).1.markets[i].source =
              st.markets[i].source ∧
           (upsert_market st now s m mn cat stt url tv ed).1.markets[i].market_id =
              st.markets[i].market_id ∧
           (upsert_market st now s m mn cat stt url tv ed).1.markets[i].created_at =
              st.markets[i].created_at) ∧
          (¬(st.markets[i].source = s ∧ st.markets[i].market_id = m) →
            (upsert_market st now s m mn cat stt url tv ed).1.markets[i] =
              st.markets[i]) ∧
          ((st.markets[i].source = s ∧ st.markets[i].market_id = m) →
            (upsert_market st now s m mn cat stt url tv ed).1.markets[i] =
              ({ st.markets[i] with market_name := mn, category := cat, status := stt,
                                    url := url, total_volume := tv, end_date := ed,
                                    updated_at := now })))) ∧
    (∀ (op : StorageOp) (now : String) (st : Store),
      st.markets.length ≤ (op.apply now st).markets.length ∧
      st.contracts.length ≤ (op.apply now st).contracts.length ∧
      st.snapshots.length ≤ (op.apply now st).snapshots.length ∧
      st.checkpoints.length ≤ (op.apply now st).checkpoints.length ∧
      (∀ i (hi : i < st.markets.length) (hi2 : i < (op.apply now st).markets.length),
        marketIdKey (op.apply now st).markets[i] = marketIdKey st.markets[i]) ∧
      (∀ i (hi : i < st.contracts.length) (hi2 : i < (op.apply now st).contracts.length),
        contractIdKey (op.apply now st).contracts[i] = contractIdKey st.contracts[i]) ∧
      (∀ i (hi : i < st.snapshots.length) (hi2 : i < (op.apply now st).snapshots.length),
        snapshotIdKey (op.apply now st).snapshots[i] = snapshotIdKey st.snapshots[i]) ∧
      (∀ i (hi : i < st.checkpoints.length)
          (hi2 : i < (op.apply now st).checkpoints.length),
        checkpointIdKey (op.apply now st).checkpoints[i] =
          checkpointIdKey st.checkpoints[i])) := by
  constructor
  · intro st now s m mn cat stt url tv ed
    constructor
    · cases hf : st.markets.find? (marketKeyP s m) <;> simp [upsert_market, hf]
    · rintro ⟨r, hr, hrs, hrm⟩
      obtain ⟨ex, hfind⟩ : ∃ ex, st.markets.find? (marketKeyP s m) = some ex := by
        cases hf : st.markets.find? (marketKeyP s m) with
        | none =>
          have := List.find?_eq_none.mp hf r hr
          exact absurd (by simp [marketKeyP, hrs, hrm]) this
        | some ex => exact ⟨ex, rfl⟩
      simp only [upsert_market, hfind]
      refine ⟨by simp, ?_⟩
      intro i hi hi2
      simp only [List.getElem_map]
      by_cases hk : st.markets[i].source = s ∧ st.markets[i].market_id = m
      · rw [if_pos (show marketKeyP s m st.markets[i] = true by simp [marketKeyP, hk.1, hk.2])]
        exact ⟨⟨rfl, rfl, rfl, rfl⟩, fun hn => absurd hk hn, fun _ => rfl⟩
      · rw [if_neg (show ¬ marketKeyP s m st.markets[i] = true by simpa [marketKeyP] using hk)]
        exact ⟨⟨rfl, rfl, rfl, rfl⟩, fun _ => rfl, fun hk2 => absurd hk2 hk⟩
  · intro op now st
    cases op with
    | opUpsertMarket s m mn cat stt url tv ed =>
      simp only [StorageOp.apply]
      cases hf : st.markets.find? (marketKeyP s m) with
      | some ex =>
        simp only [upsert_market, hf]
        refine ⟨by simp, by simp, by simp, by simp, ?_, ?_, ?_, ?_⟩ <;> intro i hi hi2
        · exact keys_of_map_cond marketIdKey (fun r => marketKeyP s m r = true)
            (fun r => { r with market_name := mn, category := cat, status := stt,
                               url := url, total_volume := tv, end_date := ed,
                               updated_at := now })
            (fun x => rfl) st.markets i hi hi2
        all_goals trivial
      | none =>
        simp only [upsert_market, hf]
        refine ⟨by simp, by simp, by simp, by simp, ?_, ?_, ?_, ?_⟩ <;> intro i hi hi2
        · exact keys_of_append marketIdKey st.markets _ i hi hi2
        all_goals trivial
    | opUpsertContract s m c cn sn =>
      simp only [StorageOp.apply]
      cases hf : st.contracts.find? (contractKeyP s m c) with
      | some ex =>
        simp only [upsert_contract, hf]
        refine ⟨by simp, by simp, by simp, by simp, ?_, ?_, ?_, ?_⟩ <;> intro i hi hi2
        · trivial
        · exact keys_of_map_cond contractIdKey (fun r => contractKeyP s m c r = true)
            (fun r => { r with contract_name := cn, short_name := sn, updated_at := now })
            (fun x => rfl) st.contracts i hi hi2
        all_goals trivial
      | none =>
        simp only [upsert_contract, hf]
        refine ⟨by simp, by simp, by simp, by simp, ?_, ?_, ?_, ?_⟩ <;> intro i hi hi2
        · trivial
        · exact keys_of_append contractIdKey st.contracts _ i hi hi2
        all_goals trivial
    | opUpsertSnapshot s m c t y n b a v raw =>
      simp only [StorageOp.apply]
      cases hf : st.snapshots.find? (snapshotKeyP s m c t) with
      | some ex =>
        simp only [upsert_price_snapshot, hf]
        refine ⟨by simp, by simp, by simp, by simp, ?_, ?_, ?_, ?_⟩ <;> intro i hi hi2
        · trivial
        · trivial
        · exact keys_of_map_cond snapshotIdKey (fun r => snapshotKeyP s m c t r = true)
            (fun r => { r with yes_price := y, no_price := n, yes_bid := b,
                               yes_ask := a, volume := v, raw_data := raw })
            (fun x => rfl) st.snapshots i hi hi2
        all_goals trivial
      | none =>
        simp only [upsert_price_snapshot, hf]
        refine ⟨by simp, by simp, by simp, by simp, ?_, ?_, ?_, ?_⟩ <;> intro i hi hi2
        · trivial
        · trivial
        · exact keys_of_append snapshotIdKey st.snapshots _ i hi hi2
        all_goals trivial
    | opCreateCheckpoint s ty ws we =>
      simp only [StorageOp.apply]
      cases hf : st.checkpoints.find? (checkpointKeyP s ty ws we) with
      | some ex =>
        simp only [create_sync_checkpoint, hf]
        split
        · exact ⟨le_refl _, le_refl _, le_refl _, le_refl _, fun i hi hi2 => rfl,
            fun i hi hi2 => rfl, fun i hi hi2 => rfl, fun i hi hi2 => rfl⟩
        · refine ⟨by simp, by simp, by simp, by simp, ?_, ?_, ?_, ?_⟩ <;> intro i hi hi2
          · trivial
          · trivial
          · trivial
          · exact keys_of_map_cond checkpointIdKey (fun r => r.id = ex.id)
              resetCheckpointRow (fun x => rfl) st.checkpoints i hi hi2
      | none =>
        simp only [create_sync_checkpoint, hf]
        refine ⟨by simp, by simp, by simp, by simp, ?_, ?_, ?_, ?_⟩ <;> intro i hi hi2
        · trivial
        · trivial
        · trivial
        · exact keys_of_append checkpointIdKey st.checkpoints _ i hi hi2
    | opUpdateCheckpoint cid status rf ri ru rd em =>
      simp only [StorageOp.apply, update_sync_checkpoint]
      split
      · refine ⟨by simp, by simp, by simp, by simp, ?_, ?_, ?_, ?_⟩ <;> intro i hi hi2
        · trivial
        · trivial
        · trivial
        · exact keys_of_map_cond checkpointIdKey (fun r => r.id = cid)
            (applyCheckpointUpdate now status rf ri ru rd em)
            (applyCheckpointUpdate_idKey now status rf ri ru rd em) st.checkpoints i hi hi2
      · exact ⟨le_refl _, le_refl _, le_refl _, le_refl _, fun i hi hi2 => rfl,
          fun i hi hi2 => rfl, fun i hi hi2 => rfl, fun i hi hi2 => rfl⟩

/-- A market row for the C8 witness. -/
def mRow : MarketRow :=
  { id := 1, source := "PredictIt", market_id := "m1", market_name := "Old",
    category := none, status := some "open", url := none, total_volume := none,
    end_date := none, created_at := "T0", updated_at := "T0" }

/-- A store holding exactly that market row. -/
def stM : Store := { Store.empty with markets := [mRow] }

/-- Witness for C8: upserting an existing key keeps the row count, and a
mutating operation never shrinks a table. -/
theorem C8_upsert_market_frame_and_never_deletes_witness :
    (upsert_market stM "T1" "PredictIt" "m1" "New" none (some "open") none none
        none).1.markets.length = stM.markets.length ∧
    stM.markets.length ≤
      ((StorageOp.opCreateCheckpoint "PredictIt" "backfill" "W0" "W1").apply "T1"
        stM).markets.length :=
  ⟨((C8_upsert_market_frame_and_never_deletes.1 stM "T1" "PredictIt" "m1" "New" none
      (some "open") none none none).2 ⟨mRow, by simp [stM], rfl, rfl⟩).1,
   (C8_upsert_market_frame_and_never_deletes.2
      (StorageOp.opCreateCheckpoint "PredictIt" "backfill" "W0" "W1") "T1" stM).1⟩

/-- Witness for C1 on the empty store: the first upsert inserts, and after two
upserts exactly one row carries the key. -/
theorem C1_upsert_price_snapshot_idempotent_witness :
    ((upsert_price_snapshot (upsert_price_snapshot Store.empty "T1" "S" "M" "C" "T"
        none none none none none none).1 "T2" "S" "M" "C" "T" none none none none
        none none).1.snapshots.filter (snapshotKeyP "S" "M" "C" "T")).length = 1 ∧
    (upsert_price_snapshot Store.empty "T1" "S" "M" "C" "T" none none none none
        none none).2.2 = true :=
  ⟨(C1_upsert_price_snapshot_idempotent Store.empty "T1" "T2" "S" "M" "C" "T" none
      none none none none none (by simp [Store.empty])).1,
   (C1_upsert_price_snapshot_idempotent Store.empty "T1" "T2" "S" "M" "C" "T" none
      none none none none none (by simp [Store.empty])).2.1 (by simp [Store.empty])⟩

/-- Claim C9: `update_sync_checkpoint` touches only the row whose `id` is the
given checkpoint id; on that row a status of `"running"` stamps `started_at`
with the current time, `"completed"`/`"failed"` stamp `completed_at`, every
counter or error-message argument that is `None` leaves its column unchanged,
and a `None` (or falsy) status leaves `status`, `started_at` and
`completed_at` all unchanged; key columns and `created_at` are never touched,
and the other tables are untouched. -/
theorem C9_update_sync_checkpoint_frame (st : Store) (now : String) (cid : Nat)
    (status : Option String) (rf ri ru rd : Option Int) (em : Option String) :
    (update_sync_checkpoint st now cid status rf ri ru rd em).markets = st.markets ∧
    (update_sync_checkpoint st now cid status rf ri ru rd em).contracts = st.contracts ∧
    (update_sync_checkpoint st now cid status rf ri ru rd em).snapshots = st.snapshots ∧
    (update_sync_checkpoint st now cid status rf ri ru rd em).checkpoints.length =
      st.checkpoints.length ∧
    ∀ i (hi : i < st.checkpoints.length)
        (hi2 : i < (update_sync_checkpoint st now cid status rf ri ru rd
          em).checkpoints.length),
      (st.checkpoints[i].id ≠ cid →
        (update_sync_checkpoint st now cid status rf ri ru rd em).checkpoints[i] =
          st.checkpoints[i]) ∧
      (st.checkpoints[i].id = cid →
        ((update_sync_checkpoint st now cid status rf ri ru rd em).checkpoints[i].id =
            st.checkpoints[i].id ∧
         (update_sync_checkpoint st now cid status rf ri ru rd
            em).checkpoints[i].source = st.checkpoints[i].source ∧
         (update_sync_checkpoint st now cid status rf ri ru rd
            em).checkpoints[i].sync_type = st.checkpoints[i].sync_type ∧
         (update_sync_checkpoint st now cid status rf ri ru rd
            em).checkpoints[i].window_start = st.checkpoints[i].window_start ∧
         (update_sync_checkpoint st now cid status rf ri ru rd
            em).checkpoints[i].window_end = st.checkpoints[i].window_end ∧
         (update_sync_checkpoint st now cid status rf ri ru rd
            em).checkpoints[i].created_at = st.checkpoints[i].created_at) ∧
        (status = some "running" →
          (update_sync_checkpoint st now cid status rf ri ru rd
            em).checkpoints[i].status = "running" ∧
          (update_sync_checkpoint st now cid status rf ri ru rd
            em).checkpoints[i].started_at = some now ∧
          (update_sync_checkpoint st now cid status rf ri ru rd
            em).checkpoints[i].completed_at = st.checkpoints[i].completed_at) ∧
        (∀ sv, status = some sv → (sv = "completed" ∨ sv = "failed") →
          (update_sync_checkpoint st now cid status rf ri ru rd
            em).checkpoints[i].status = sv ∧
          (update_sync_checkpoint st now cid status rf ri ru rd
            em).checkpoints[i].completed_at = some now ∧
          (update_sync_checkpoint st now cid status rf ri ru rd
            em).checkpoints[i].started_at = st.checkpoints[i].started_at) ∧
        ((status = none ∨ status = some "") →
          (update_sync_checkpoint st now cid status rf ri ru rd
            em).checkpoints[i].status = st.checkpoints[i].status ∧
          (update_sync_checkpoint st now cid status rf ri ru rd
            em).checkpoints[i].started_at = st.checkpoints[i].started_at ∧
          (update_sync_checkpoint st now cid status rf ri ru rd
            em).checkpoints[i].completed_at = st.checkpoints[i].completed_at) ∧
        (rf = none →
          (update_sync_checkpoint st now cid status rf ri ru rd
            em).checkpoints[i].records_fetched = st.checkpoints[i].records_fetched) ∧
        (∀ v, rf = some v →
          (update_sync_checkpoint st now cid status rf ri ru rd
            em).checkpoints[i].records_fetched = v) ∧
        (ri = none →
          (update_sync_checkpoint st now cid status rf ri ru rd
            em).checkpoints[i].records_inserted = st.checkpoints[i].records_inserted) ∧
        (∀ v, ri = some v →
          (update_sync_checkpoint st now cid status rf ri ru rd
            em).checkpoints[i].records_inserted = v) ∧
        (ru = none →
          (update_sync_checkpoint st now cid status rf ri ru rd
            em).checkpoints[i].records_updated = st.checkpoints[i].records_updated) ∧
        (∀ v, ru = some v →
          (update_sync_checkpoint st now cid status rf ri ru rd
            em).checkpoints[i].records_updated = v) ∧
        (rd = none →
          (update_sync_checkpoint st now cid status rf ri ru rd
            em).checkpoints[i].records_deduped = st.checkpoints[i].records_deduped) ∧
        (∀ v, rd = some v →
          (update_sync_checkpoint st now cid status rf ri ru rd
            em).checkpoints[i].records_deduped = v) ∧
        (em = none →
          (update_sync_checkpoint st now cid status rf ri ru rd
            em).checkpoints[i].error_message = st.checkpoints[i].error_message) ∧
        (∀ v, em = some v →
          (update_sync_checkpoint st now cid status rf ri ru rd
            em).checkpoints[i].error_message = some v)) := by
  by_cases hg : anyCheckpointUpdates status rf ri ru rd em = true
  · have hst : update_sync_checkpoint st now cid status rf ri ru rd em =
        { st with checkpoints := st.checkpoints.map fun r =>
            if r.id = cid then applyCheckpointUpdate now status rf ri ru rd em r
            else r } := by
      simp only [update_sync_checkpoint, if_pos hg]
    rw [hst]
    refine ⟨rfl, rfl, rfl, by simp, ?_⟩
    intro i hi hi2
    constructor
    · intro hne
      simp only [List.getElem_map]
      rw [if_neg hne]
    · intro heq
      simp only [List.getElem_map]
      rw [if_pos heq]
      obtain ⟨h1, h2, h3, h4, h5, h6, h7, h8, h9, h10, h11, h12, h13, h14⟩ :=
        applyCheckpointUpdate_spec now status rf ri ru rd em st.checkpoints[i]
      refine ⟨⟨h1, h2, h3, h4, h5, h6⟩, ?_, ?_, ?_, ?_, ?_, ?_, ?_, ?_, ?_, ?_, ?_,
        ?_, ?_⟩
      · intro hs
        subst hs
        simp at h12 h13 h14
        exact ⟨h12, h13, h14⟩
      · intro sv hsv hcf
        subst hsv
        rcases hcf with rfl | rfl <;> simp at h12 h13 h14 <;> exact ⟨h12, h14, h13⟩
      · intro h0
        rcases h0 with rfl | rfl <;> simp at h12 h13 h14 <;> exact ⟨h12, h13, h14⟩
      · intro h0; subst h0; exact h7
      · intro v hv; subst hv; exact h7
      · intro h0; subst h0; exact h8
      · intro v hv; subst hv; exact h8
      · intro h0; subst h0; exact h9
      · intro v hv; subst hv; exact h9
      · intro h0; subst h0; exact h10
      · intro v hv; subst hv; exact h10
      · intro h0; subst h0; exact h11
      · intro v hv; subst hv; exact h11
  · have hrf : rf = none := by
      cases rf with
      | none => rfl
      | some v => exact absurd (by simp [anyCheckpointUpdates]) hg
    have hri : ri = none := by
      cases ri with
      | none => rfl
      | some v => exact absurd (by simp [anyCheckpointUpdates]) hg
    have hru : ru = none := by
      cases ru with
      | none => rfl
      | some v => exact absurd (by simp [anyCheckpointUpdates]) hg
    have hrd : rd = none := by
      cases rd with
      | none => rfl
      | some v => exact absurd (by simp [anyCheckpointUpdates]) hg
    have hem : em = none := by
      cases em with
      | none => rfl
      | some v => exact absurd (by simp [anyCheckpointUpdates]) hg
    have hsc : status = none ∨ status = some "" := by
      cases status with
      | none => exact Or.inl rfl
      | some s =>
        right
        have hst : statusTruthy (some s) = false := by
          cases h : statusTruthy (some s)
          · rfl
          · exact absurd (by simp [anyCheckpointUpdates, h]) hg
        simp [statusTruthy] at hst
        rw [hst]
    have hstore : update_sync_checkpoint st now cid status rf ri ru rd em = st := by
      simp only [update_sync_checkpoint, if_neg hg]
    rw [hstore]
    refine ⟨rfl, rfl, rfl, rfl, ?_⟩
    intro i hi hi2
    refine ⟨fun _ => rfl, fun heq => ?_⟩
    subst hrf hri hru hrd hem
    refine ⟨⟨rfl, rfl, rfl, rfl, rfl, rfl⟩, ?_, ?_, ?_, fun _ => rfl, ?_, fun _ => rfl,
      ?_, fun _ => rfl, ?_, fun _ => rfl, ?_, fun _ => rfl, ?_⟩
    · intro hs
      rw [hs] at hsc
      rcases hsc with h | h <;> simp at h
    · intro sv hsv hcf
      rw [hsv] at hsc
      rcases hsc with h | h
      · simp at h
      · simp only [Option.some.injEq] at h
        rcases hcf with rfl | rfl <;> simp at h
    · intro _; exact ⟨rfl, rfl, rfl⟩
    · intro v hv; simp at hv
    · intro v hv; simp at hv
    · intro v hv; simp at hv
    · intro v hv; simp at hv
    · intro v hv; simp at hv

/-- Witness for C9 on the one-row store: marking checkpoint 5 `running` stamps
its `started_at` while the row count is unchanged. -/
theorem C9_update_sync_checkpoint_frame_witness :
    ((update_sync_checkpoint stDone "T9" 5 (some "running") none none none none
        none).checkpoints.get ⟨0, by decide⟩).started_at = some "T9" ∧
    (update_sync_checkpoint stDone "T9" 5 (some "running") none none none none
        none).checkpoints.length = stDone.checkpoints.length :=
  ⟨((((C9_update_sync_checkpoint_frame stDone "T9" 5 (some "running") none none none
        none none).2.2.2.2 0 (by decide) (by decide)).2 (by decide)).2.1 rfl).2.1,
   (C9_update_sync_checkpoint_frame stDone "T9" 5 (some "running") none none none
      none none).2.2.2.1⟩

/-- `pyMaxBy` (Python `max(..., key=k)`) returns one of its candidates. -/
lemma pyMaxBy_mem {a : Type} (k : a → ℚ) (x : a) (xs : List a) :
    pyMaxBy k x xs ∈ x :: xs := by
  induction xs generalizing x with
  | nil => simp [pyMaxBy]
  | cons y ys ih =>
    have h := ih (if k y > k x then y else x)
    rcases List.mem_cons.mp h with h1 | h1
    · show pyMaxBy k (if k y > k x then y else x) ys ∈ x :: y :: ys
      rw [h1]
      split
      · exact List.mem_cons_of_mem _ (List.mem_cons_self _ _)
      · exact List.mem_cons_self _ _
    · exact List.mem_cons_of_mem _ (List.mem_cons_of_mem _ h1)

/-- `pyMaxBy` dominates every candidate's key. -/
lemma le_pyMaxBy {a : Type} (k : a → ℚ) (x : a) (xs : List a) :
    ∀ z ∈ x :: xs, k z ≤ k (pyMaxBy k x xs) := by
  induction xs generalizing x with
  | nil =>
    intro z hz
    simp only [List.mem_singleton] at hz
    subst hz
    simp [pyMaxBy]
  | cons y ys ih =>
    intro z hz
    have hbx : k x ≤ k (if k y > k x then y else x) := by
      split
      · exact le_of_lt (by assumption)
      · exact le_refl _
    have hby : k y ≤ k (if k y > k x then y else x) := by
      split
      · exact le_refl _
      · exact le_of_not_lt (by assumption)
    have hc := ih (if k y > k x then y else x) _ (List.mem_cons_self _ _)
    show k z ≤ k (pyMaxBy k (if k y > k x then y else x) ys)
    rcases List.mem_cons.mp hz with rfl | hz1
    · exact le_trans hbx hc
    rcases List.mem_cons.mp hz1 with rfl | hz2
    · exact le_trans hby hc
    · exact ih _ z (List.mem_cons_of_mem _ hz2)

/-- A left fold of `min` lands on one of its candidates. -/
lemma foldl_min_mem (x : ℚ) (l : List ℚ) : l.foldl min x ∈ x :: l := by
  induction l generalizing x with
  | nil => simp
  | cons b bs ih =>
    have h := ih (min x b)
    rcases List.mem_cons.mp h with h1 | h1
    · show List.foldl min (min x b) bs ∈ x :: b :: bs
      rw [h1]
      rcases min_choice x b with h2 | h2 <;> rw [h2]
      · exact List.mem_cons_self _ _
      · exact List.mem_cons_of_mem _ (List.mem_cons_self _ _)
    · exact List.mem_cons_of_mem _ (List.mem_cons_of_mem _ h1)

/-- A left fold of `min` is below every candidate. -/
lemma foldl_min_le (x : ℚ) (l : List ℚ) : ∀ z ∈ x :: l, l.foldl min x ≤ z := by
  induction l generalizing x with
  | nil =>
    intro z hz
    simp only [List.mem_singleton] at hz
    subst hz
    simp
  | cons b bs ih =>
    intro z hz
    have hc := ih (min x b) _ (List.mem_cons_self _ _)
    show List.foldl min (min x b) bs ≤ z
    rcases List.mem_cons.mp hz with rfl | hz1
    · exact le_trans hc (min_le_left _ _)
    rcases List.mem_cons.mp hz1 with rfl | hz2
    · exact le_trans hc (min_le_right _ _)
    · exact ih _ z (List.mem_cons_of_mem _ hz2)

/-- `pyMinYes` as a fold of `min` over the yes components. -/
lemma pyMinYes_eq (p : String × ℚ × ℚ) (ps : List (String × ℚ × ℚ)) :
    pyMinYes p ps = (ps.map fun t => t.2.1).foldl min p.2.1 := by
  rw [List.foldl_map]
  rfl

/-- `pyMinYes` is one of the yes prices. -/
lemma pyMinYes_mem (p : String × ℚ × ℚ) (ps : List (String × ℚ × ℚ)) :
    pyMinYes p ps ∈ (p :: ps).map (fun t => t.2.1) := by
  rw [pyMinYes_eq]
  simpa using foldl_min_mem p.2.1 (ps.map fun t => t.2.1)

/-- `pyMinYes` is below every yes price. -/
lemma pyMinYes_le (p : String × ℚ × ℚ) (ps : List (String × ℚ × ℚ)) :
    ∀ t ∈ p :: ps, pyMinYes p ps ≤ t.2.1 := by
  intro t ht
  rw [pyMinYes_eq]
  apply foldl_min_le
  rcases List.mem_cons.mp ht with rfl | h
  · exact List.mem_cons_self _ _
  · exact List.mem_cons_of_mem _ (List.mem_map_of_mem _ h)

/-- Claim C10: in `_aggregate_entries`, a `None` `yes_price` is treated as 0
and a zero or `None` quoted `yes_price` excludes the entry from the price list
(hence from `worst_yes`, `best_no` and the entry count); a `None` or exactly
zero `no_price` is replaced by `1 - yes_price`, while a nonzero quoted
`no_price` is used as is; a group aggregates to `None` exactly when fewer than
two entries survive the filter. -/
theorem C10_aggregate_entries_truthiness (e : Entry) (entries : List Entry)
    (name : String) :
    ((e.yes_price = none ∨ e.yes_price = some 0) → entryYes e = 0) ∧
    (∀ v, e.yes_price = some v → v ≠ 0 → entryYes e = v) ∧
    ((e.no_price = none ∨ e.no_price = some 0) → entryNo e = 1 - entryYes e) ∧
    (∀ v, e.no_price = some v → v ≠ 0 → entryNo e = v) ∧
    ((e.yes_price = none ∨ e.yes_price = some 0) →
      pricesOf (e :: entries) = pricesOf entries) ∧
    (entryYes e > 0 →
      pricesOf (e :: entries) = (e.source, entryYes e, entryNo e) :: pricesOf entries) ∧
    (aggregate_entries name entries = none ↔ (pricesOf entries).length < 2) := by
  refine ⟨?_, ?_, ?_, ?_, ?_, ?_, ?_⟩
  · rintro (h | h) <;> simp [entryYes, pyOr, h]
  · intro v hv hv0
    simp [entryYes, pyOr, hv, hv0]
  · rintro (h | h) <;> simp [entryNo, pyOr, h]
  · intro v hv hv0
    simp [entryNo, pyOr, hv, hv0]
  · intro h
    have h0 : entryYes e = 0 := by rcases h with h | h <;> simp [entryYes, pyOr, h]
    simp [pricesOf, h0]
  · intro h
    simp [pricesOf, h]
  · cases hp : pricesOf entries with
    | nil => simp [aggregate_entries, hp]
    | cons p ps =>
      cases ps with
      | nil => simp [aggregate_entries, hp]
      | cons q rest =>
        simp only [aggregate_entries, hp, List.length_cons]
        refine ⟨fun h => absurd h (by simp), fun h => by omega⟩

/-- Witness for C10 at a zero yes quote: treated as 0, excluded from the price
list, and its NO side derived as `1 - yes`. -/
theorem C10_aggregate_entries_truthiness_witness :
    entryYes { source := "X", yes_price := some 0, no_price := none,
               volume := none } = 0 ∧
    pricesOf [{ source := "X", yes_price := some 0, no_price := none,
                volume := none }] = pricesOf [] ∧
    entryNo { source := "X", yes_price := some 0, no_price := none,
              volume := none } =
      1 - entryYes { source := "X", yes_price := some 0, no_price := none,
                     volume := none } :=
  ⟨(C10_aggregate_entries_truthiness
      { source := "X", yes_price := some 0, no_price := none, volume := none } []
      "g").1 (Or.inr rfl),
   (C10_aggregate_entries_truthiness
      { source := "X", yes_price := some 0, no_price := none, volume := none } []
      "g").2.2.2.2.1 (Or.inr rfl),
   (C10_aggregate_entries_truthiness
      { source := "X", yes_price := some 0, no_price := none, volume := none } []
      "g").2.2.1 (Or.inl rfl)⟩

/-- Claim C5 (amended): aggregation runs over the entries with positive
`yes_price` (a missing or zero `no_price` being derived as `1 - yes_price`);
fewer than two such entries yield no opportunity; otherwise
`arbitrage_spread = (1 - best_no) - worst_yes` where `best_no` is the maximum
of those (possibly derived) NO prices and `worst_yes` the minimum YES price;
`detect_arbitrage` returns the matched groups sorted by descending spread,
keeping exactly those with spread at least `min_spread`.  On the spec's
concrete example the derived NO for source X is `0.70`, so `best_no = 0.70`,
the spread is `0`, and the group is absent from the default-threshold
report. -/
theorem C5_aggregation_amended (name : String) (entries : List Entry)
    (results : List (String × List AggMarket)) (min_spread : ℚ) :
    (aggregate_entries name entries = none ↔ (pricesOf entries).length < 2) ∧
    (∀ agg, aggregate_entries name entries = some agg →
      (agg.best_no_price ∈ (pricesOf entries).map (fun t => t.2.2) ∧
       ∀ t ∈ pricesOf entries, t.2.2 ≤ agg.best_no_price) ∧
      ∃ wy, wy ∈ (pricesOf entries).map (fun t => t.2.1) ∧
        (∀ t ∈ pricesOf entries, wy ≤ t.2.1) ∧
        agg.arbitrage_spread = (1 - agg.best_no_price) - wy) ∧
    List.Sorted (fun x y : AggregatedMarket => y.arbitrage_spread ≤ x.arbitrage_spread)
      (detect_arbitrage results min_spread) ∧
    (∀ mkt, mkt ∈ detect_arbitrage results min_spread ↔
      mkt ∈ find_matching_markets results ∧ min_spread ≤ mkt.arbitrage_spread) ∧
    (aggregate_entries "trump" specExampleEntries).map AggregatedMarket.best_no_price =
      some (7/10) ∧
    (aggregate_entries "trump" specExampleEntries).map AggregatedMarket.arbitrage_spread =
      some 0 ∧
    detect_arbitrage specExampleResults (1/50) = [] := by
  refine ⟨?_, ?_, ?_, ?_, ?_, ?_, spec_example_detect⟩
  · cases hp : pricesOf entries with
    | nil => simp [aggregate_entries, hp]
    | cons p ps =>
      cases ps with
      | nil => simp [aggregate_entries, hp]
      | cons q rest =>
        simp only [aggregate_entries, hp, List.length_cons]
        refine ⟨fun h => absurd h (by simp), fun h => by omega⟩
  · intro agg hagg
    cases hp : pricesOf entries with
    | nil => simp [aggregate_entries, hp] at hagg
    | cons p ps =>
      cases ps with
      | nil => simp [aggregate_entries, hp] at hagg
      | cons q rest =>
        simp only [aggregate_entries, hp, Option.some.injEq] at hagg
        subst hagg
        refine ⟨⟨?_, ?_⟩, pyMinYes p (q :: rest), ?_, ?_, rfl⟩
        · exact List.mem_map_of_mem _ (pyMaxBy_mem (fun t => t.2.2) p (q :: rest))
        · intro t ht
          exact le_pyMaxBy (fun t => t.2.2) p (q :: rest) t ht
        · exact pyMinYes_mem p (q :: rest)
        · intro t ht
          exact pyMinYes_le p (q :: rest) t ht
  · have htrans : ∀ x y z : AggregatedMarket,
        (fun x y : AggregatedMarket =>
          decide (y.arbitrage_spread ≤ x.arbitrage_spread)) x y = true →
        (fun x y : AggregatedMarket =>
          decide (y.arbitrage_spread ≤ x.arbitrage_spread)) y z = true →
        (fun x y : AggregatedMarket =>
          decide (y.arbitrage_spread ≤ x.arbitrage_spread)) x z = true := by
      intro x y z hxy hyz
      simp only [decide_eq_true_eq] at *
      exact le_trans hyz hxy
    have htotal : ∀ x y : AggregatedMarket,
        ((fun x y : AggregatedMarket =>
          decide (y.arbitrage_spread ≤ x.arbitrage_spread)) x y ||
         (fun x y : AggregatedMarket =>
          decide (y.arbitrage_spread ≤ x.arbitrage_spread)) y x) = true := by
      intro x y
      simp only [Bool.or_eq_true, decide_eq_true_eq]
      exact le_total _ _
    have hsorted := @List.sorted_mergeSort AggregatedMarket
      (fun x y : AggregatedMarket => decide (y.arbitrage_spread ≤ x.arbitrage_spread))
      htrans htotal (aggregatedGroups (buildNameIndex results))
    simp only [detect_arbitrage, find_matching_markets]
    exact List.Pairwise.filter _ (hsorted.imp fun h => of_decide_eq_true h)
  · intro mkt
    simp only [detect_arbitrage, List.mem_filter, decide_eq_true_eq]
  · rw [spec_example_aggregate]
    rfl
  · rw [spec_example_aggregate]
    rfl

/-- Witness for C5 (amended): at the spec's example the proved maximum
characterisation puts `0.70` among the derived NO prices, and an empty group
aggregates to `None`. -/
theorem C5_aggregation_amended_witness :
    ((7 : ℚ)/10) ∈ (pricesOf specExampleEntries).map (fun t => t.2.2) ∧
    aggregate_entries "g" [] = none :=
  ⟨((C5_aggregation_amended "trump" specExampleEntries specExampleResults
      (1/50)).2.1 _ spec_example_aggregate).1.1,
   (C5_aggregation_amended "g" [] [] 0).1.mpr (by simp [pricesOf])⟩

/-- `upsert_market` never touches the checkpoint table. -/
lemma upsert_market_checkpoints (st : Store) (now s m mn : String)
    (cat stt url : Option String) (tv : Option ℚ) (ed : Option String) :
    (upsert_market st now s m mn cat stt url tv ed).1.checkpoints = st.checkpoints := by
  cases hf : st.markets.find? (marketKeyP s m) <;> simp [upsert_market, hf]

/-- `upsert_contract` never touches the checkpoint table. -/
lemma upsert_contract_checkpoints (st : Store) (now s m c cn : String)
    (sn : Option String) :
    (upsert_contract st now s m c cn sn).1.checkpoints = st.checkpoints := by
  cases hf : st.contracts.find? (contractKeyP s m c) <;> simp [upsert_contract, hf]

/-- `upsert_price_snapshot` never touches the checkpoint table. -/
lemma upsert_price_snapshot_checkpoints (st : Store) (now s m c t : String)
    (y n b a v : Option ℚ) (raw : Option String) :
    (upsert_price_snapshot st now s m c t y n b a v raw).1.checkpoints =
      st.checkpoints := by
  cases hf : st.snapshots.find? (snapshotKeyP s m c t) <;>
    simp [upsert_price_snapshot, hf]

/-- The contract loop of a fetch task writes only data tables, never the
checkpoint table. -/
lemma processContracts_checkpoints (sched : Nat → Option PyExc)
    (s m mn snap now : String) :
    ∀ (cs : List ContractRec) (st : Store) (stats : FetchStats) (idx : Nat),
      (processContracts sched s m mn snap now cs st stats idx).1.checkpoints =
        st.checkpoints := by
  intro cs
  induction cs with
  | nil =>
    intro st stats idx
    rfl
  | cons c cs ih =>
    intro st stats idx
    simp only [processContracts]
    cases sched idx with
    | some e => rfl
    | none =>
      cases sched (idx + 1) with
      | some e => exact upsert_contract_checkpoints st now s m c.contract_id c.contract_name none
      | none =>
        rw [ih, upsert_price_snapshot_checkpoints, upsert_contract_checkpoints]

/-- The market loop of a fetch task writes only data tables, never the
checkpoint table. -/
lemma processMarkets_checkpoints (sched : Nat → Option PyExc) (s snap now : String) :
    ∀ (ms : List MarketRec) (st : Store) (stats : FetchStats) (idx : Nat),
      (processMarkets sched s snap now ms st stats idx).1.checkpoints =
        st.checkpoints := by
  intro ms
  induction ms with
  | nil =>
    intro st stats idx
    rfl
  | cons m ms ih =>
    intro st stats idx
    simp only [processMarkets]
    cases sched idx with
    | some e => rfl
    | none =>
      have h := processContracts_checkpoints sched s m.market_id m.market_name snap now
        m.contracts (upsert_market st now s m.market_id m.market_name m.category
          (some m.status) m.url m.total_volume none).1
        { stats with fetched := stats.fetched + 1 } (idx + 1)
      rw [upsert_market_checkpoints] at h
      rcases hpc : processContracts sched s m.market_id m.market_name snap now
        m.contracts (upsert_market st now s m.market_id m.market_name m.category
          (some m.status) m.url m.total_volume none).1
        { stats with fetched := stats.fetched + 1 } (idx + 1) with ⟨st2, stats2, idx2, exc⟩
      rw [hpc] at h
      cases exc with
      | some e =>
        show st2.checkpoints = st.checkpoints
        exact h
      | none =>
        show (processMarkets sched s snap now ms st2 stats2 idx2).1.checkpoints =
          st.checkpoints
        rw [ih]
        exact h

/-- The index and exception outcome of the contract loop do not depend on the
store or the statistics, only on the adapter data and the failure schedule. -/
lemma processContracts_outcome_indep (sched : Nat → Option PyExc)
    (s m mn snap now : String) :
    ∀ (cs : List ContractRec) (st st2 : Store) (stats stats2 : FetchStats) (idx : Nat),
      (processContracts sched s m mn snap now cs st stats idx).2.2 =
        (processContracts sched s m mn snap now cs st2 stats2 idx).2.2 := by
  intro cs
  induction cs with
  | nil =>
    intro st st2 stats stats2 idx
    rfl
  | cons c cs ih =>
    intro st st2 stats stats2 idx
    simp only [processContracts]
    cases sched idx with
    | some e => rfl
    | none =>
      cases sched (idx + 1) with
      | some e => rfl
      | none =>
        show (processContracts sched s m mn snap now cs _ _ (idx + 2)).2.2 =
          (processContracts sched s m mn snap now cs _ _ (idx + 2)).2.2
        apply ih

/-- The index and exception outcome of the market loop do not depend on the
store or the statistics. -/
lemma processMarkets_outcome_indep (sched : Nat → Option PyExc) (s snap now : String) :
    ∀ (ms : List MarketRec) (st st2 : Store) (stats stats2 : FetchStats) (idx : Nat),
      (processMarkets sched s snap now ms st stats idx).2.2.2 =
        (processMarkets sched s snap now ms st2 stats2 idx).2.2.2 := by
  intro ms
  induction ms with
  | nil =>
    intro st st2 stats stats2 idx
    rfl
  | cons m ms ih =>
    intro st st2 stats stats2 idx
    simp only [processMarkets]
    cases sched idx with
    | some e => rfl
    | none =>
      have hout := processContracts_outcome_indep sched s m.market_id m.market_name snap
        now m.contracts
        (upsert_market st now s m.market_id m.market_name m.category (some m.status)
          m.url m.total_volume none).1
        (upsert_market st2 now s m.market_id m.market_name m.category (some m.status)
          m.url m.total_volume none).1
        { stats with fetched := stats.fetched + 1 }
        { stats2 with fetched := stats2.fetched + 1 } (idx + 1)
      rcases hpa : processContracts sched s m.market_id m.market_name snap now
        m.contracts (upsert_market st now s m.market_id m.market_name m.category
          (some m.status) m.url m.total_volume none).1
        { stats with fetched := stats.fetched + 1 } (idx + 1) with ⟨sa, ta, ia, ea⟩
      rcases hpb : processContracts sched s m.market_id m.market_name snap now
        m.contracts (upsert_market st2 now s m.market_id m.market_name m.category
          (some m.status) m.url m.total_volume none).1
        { stats2 with fetched := stats2.fetched + 1 } (idx + 1) with ⟨sb, tb, ib, eb⟩
      rw [hpa, hpb] at hout
      simp only [Prod.mk.injEq] at hout
      obtain ⟨hi, he⟩ := hout
      subst hi
      subst he
      cases ea with
      | some e =>
        show (sa, ta, ia, some e).2.2.2 = (sb, tb, ia, some e).2.2.2
        rfl
      | none =>
        show (processMarkets sched s snap now ms sa ta ia).2.2.2 =
          (processMarkets sched s snap now ms sb tb ia).2.2.2
        apply ih

/-- The exception outcome of the whole `try` block does not depend on the
incoming store. -/
lemma tryFetchAndStore_exc_indep (fetchResult : Except PyExc (List MarketRec))
    (sched : Nat → Option PyExc) (s snap now : String) (cid : Nat) (st st2 : Store) :
    (tryFetchAndStore fetchResult sched s snap now cid st).2.2 =
      (tryFetchAndStore fetchResult sched s snap now cid st2).2.2 := by
  cases fetchResult with
  | error e => rfl
  | ok ms =>
    simp only [tryFetchAndStore]
    have h := processMarkets_outcome_indep sched s snap now ms
      (update_sync_checkpoint st now cid (some "running") none none none none none)
      (update_sync_checkpoint st2 now cid (some "running") none none none none none)
      FetchStats.init FetchStats.init 0
    rcases hpa : processMarkets sched s snap now ms
      (update_sync_checkpoint st now cid (some "running") none none none none none)
      FetchStats.init 0 with ⟨sa, ta, ia, ea⟩
    rcases hpb : processMarkets sched s snap now ms
      (update_sync_checkpoint st2 now cid (some "running") none none none none none)
      FetchStats.init 0 with ⟨sb, tb, ib, eb⟩
    rw [hpa, hpb] at h
    simpa using h

/-- When any `SET` clause is present, `update_sync_checkpoint` is the guarded
row map. -/
lemma update_sync_checkpoint_eq_map (st : Store) (now : String) (cid : Nat)
    (status : Option String) (rf ri ru rd : Option Int) (em : Option String)
    (h : anyCheckpointUpdates status rf ri ru rd em = true) :
    update_sync_checkpoint st now cid status rf ri ru rd em =
      { st with checkpoints := st.checkpoints.map fun r =>
          if r.id = cid then applyCheckpointUpdate now status rf ri ru rd em r
          else r } := by
  simp only [update_sync_checkpoint, if_pos h]

/-- The `try` block's store has the checkpoint table of the initial
running-marking update: the upsert loop never touches checkpoints. -/
lemma tryFetchAndStore_checkpoints (fetchResult : Except PyExc (List MarketRec))
    (sched : Nat → Option PyExc) (s snap now : String) (cid : Nat) (st : Store) :
    (tryFetchAndStore fetchResult sched s snap now cid st).1.checkpoints =
      (update_sync_checkpoint st now cid (some "running") none none none none
        none).checkpoints := by
  cases fetchResult with
  | error e => rfl
  | ok ms =>
    simp only [tryFetchAndStore]
    have h := processMarkets_checkpoints sched s snap now ms
      (update_sync_checkpoint st now cid (some "running") none none none none none)
      FetchStats.init 0
    rcases hpm : processMarkets sched s snap now ms
      (update_sync_checkpoint st now cid (some "running") none none none none none)
      FetchStats.init 0 with ⟨s2, t2, i2, e2⟩
    rw [hpm] at h
    exact h

/-- Per-task checkpoint outcome of `fetch_source_data` (with a client): row
count and row ids are preserved, rows of other checkpoints are untouched, and
the task's own checkpoint ends `completed` on a clean run or `failed` with the
exception message and the partial counts when the `try` block raised. -/
lemma fetch_source_data_spec (fetchResult : Except PyExc (List MarketRec))
    (sched : Nat → Option PyExc) (s snap now : String) (cid : Nat) (st : Store) :
    (fetch_source_data true fetchResult sched s snap now cid st).1.checkpoints.length =
      st.checkpoints.length ∧
    ∀ i (hi : i < st.checkpoints.length)
        (hi2 : i < (fetch_source_data true fetchResult sched s snap now cid
          st).1.checkpoints.length),
      (fetch_source_data true fetchResult sched s snap now cid
          st).1.checkpoints[i].id = st.checkpoints[i].id ∧
      (st.checkpoints[i].id ≠ cid →
        (fetch_source_data true fetchResult sched s snap now cid st).1.checkpoints[i] =
          st.checkpoints[i]) ∧
      (st.checkpoints[i].id = cid →
        ((tryFetchAndStore fetchResult sched s snap now cid st).2.2 = none →
          (fetch_source_data true fetchResult sched s snap now cid
            st).1.checkpoints[i].status = "completed") ∧
        (∀ e, (tryFetchAndStore fetchResult sched s snap now cid st).2.2 = some e →
          (fetch_source_data true fetchResult sched s snap now cid
            st).1.checkpoints[i].status = "failed" ∧
          (fetch_source_data true fetchResult sched s snap now cid
            st).1.checkpoints[i].error_message = some (excMsg e) ∧
          (fetch_source_data true fetchResult sched s snap now cid
            st).1.checkpoints[i].records_fetched =
            ((tryFetchAndStore fetchResult sched s snap now cid st).2.1.fetched : Int) ∧
          (fetch_source_data true fetchResult sched s snap now cid
            st).1.checkpoints[i].records_inserted =
            ((tryFetchAndStore fetchResult sched s snap now cid st).2.1.inserted : Int) ∧
          (fetch_source_data true fetchResult sched s snap now cid
            st).1.checkpoints[i].records_updated =
            ((tryFetchAndStore fetchResult sched s snap now cid st).2.1.updated : Int) ∧
          (fetch_source_data true fetchResult sched s snap now cid
            st).1.checkpoints[i].records_deduped =
            ((tryFetchAndStore fetchResult sched s snap now cid st).2.1.deduped : Int))) := by
  have h0 := tryFetchAndStore_checkpoints fetchResult sched s snap now cid st
  have hrun := update_sync_checkpoint_eq_map st now cid (some "running") none none none
    none none (by decide)
  rcases htry : tryFetchAndStore fetchResult sched s snap now cid st with ⟨st2, stats, exc⟩
  rw [htry] at h0
  have hmap : st2.checkpoints = st.checkpoints.map fun r =>
      if r.id = cid then applyCheckpointUpdate now (some "running") none none none
        none none r else r := by
    rw [h0, hrun]
  cases exc with
  | none =>
    have hres : fetch_source_data true fetchResult sched s snap now cid st =
        (update_sync_checkpoint st2 now cid (some "completed") (some stats.fetched)
          (some stats.inserted) (some stats.updated) (some stats.deduped) none,
         stats) := by
      simp [fetch_source_data, htry]
    rw [hres,
      update_sync_checkpoint_eq_map st2 now cid (some "completed") (some stats.fetched)
        (some stats.inserted) (some stats.updated) (some stats.deduped) none
        (by simp [anyCheckpointUpdates, statusTruthy])]
    refine ⟨by simp [hmap], ?_⟩
    intro i hi hi2
    simp only [hmap, List.getElem_map]
    by_cases hid : st.checkpoints[i].id = cid
    · rw [if_pos hid]
      obtain ⟨g1_id, _, _, _, _, _, _, _, _, _, _, _, _, _⟩ :=
        applyCheckpointUpdate_spec now (some "running") none none none none none
          st.checkpoints[i]
      rw [if_pos (g1_id.trans hid)]
      obtain ⟨g2_id, _, _, _, _, _, _, _, _, _, _, g2_status, _, _⟩ :=
        applyCheckpointUpdate_spec now (some "completed") (some (stats.fetched : Int))
          (some (stats.inserted : Int)) (some (stats.updated : Int))
          (some (stats.deduped : Int)) none
          (applyCheckpointUpdate now (some "running") none none none none none
            st.checkpoints[i])
      refine ⟨g2_id.trans g1_id, fun hne => absurd hid hne, fun _ => ⟨fun _ => ?_, ?_⟩⟩
      · rw [g2_status]
        simp
      · intro e he
        cases he
    · rw [if_neg hid, if_neg hid]
      exact ⟨rfl, fun _ => rfl, fun heq => absurd heq hid⟩
  | some e =>
    have hres : fetch_source_data true fetchResult sched s snap now cid st =
        (update_sync_checkpoint st2 now cid (some "failed") (some stats.fetched)
          (some stats.inserted) (some stats.updated) (some stats.deduped)
          (some (excMsg e)),
         { stats with error := some (excMsg e) }) := by
      simp [fetch_source_data, htry]
    rw [hres,
      update_sync_checkpoint_eq_map st2 now cid (some "failed") (some stats.fetched)
        (some stats.inserted) (some stats.updated) (some stats.deduped)
        (some (excMsg e)) (by simp [anyCheckpointUpdates, statusTruthy])]
    refine ⟨by simp [hmap], ?_⟩
    intro i hi hi2
    simp only [hmap, List.getElem_map]
    by_cases hid : st.checkpoints[i].id = cid
    · rw [if_pos hid]
      obtain ⟨g1_id, _, _, _, _, _, _, _, _, _, _, _, _, _⟩ :=
        applyCheckpointUpdate_spec now (some "running") none none none none none
          st.checkpoints[i]
      rw [if_pos (g1_id.trans hid)]
      obtain ⟨g2_id, _, _, _, _, _, g2_rf, g2_ri, g2_ru, g2_rd, g2_em, g2_status,
        _, _⟩ :=
        applyCheckpointUpdate_spec now (some "failed") (some (stats.fetched : Int))
          (some (stats.inserted : Int)) (some (stats.updated : Int))
          (some (stats.deduped : Int)) (some (excMsg e))
          (applyCheckpointUpdate now (some "running") none none none none none
            st.checkpoints[i])
      refine ⟨g2_id.trans g1_id, fun hne => absurd hid hne,
        fun _ => ⟨(fun hc => by cases hc), ?_⟩⟩
      intro e2 he2
      cases he2
      refine ⟨by rw [g2_status]; simp, by rw [g2_em], by rw [g2_rf], by rw [g2_ri],
        by rw [g2_ru], by rw [g2_rd]⟩
    · rw [if_neg hid, if_neg hid]
      exact ⟨rfl, fun _ => rfl, fun heq => absurd heq hid⟩

/-- Checkpoint frame of one task, client or not: row count and ids preserved,
rows of other checkpoints untouched. -/
lemma fetch_source_data_frame (hc : Bool) (fetchResult : Except PyExc (List MarketRec))
    (sched : Nat → Option PyExc) (s snap now : String) (cid : Nat) (st : Store) :
    (fetch_source_data hc fetchResult sched s snap now cid st).1.checkpoints.length =
      st.checkpoints.length ∧
    ∀ i (hi : i < st.checkpoints.length)
        (hi2 : i < (fetch_source_data hc fetchResult sched s snap now cid
          st).1.checkpoints.length),
      (fetch_source_data hc fetchResult sched s snap now cid st).1.checkpoints[i].id =
        st.checkpoints[i].id ∧
      (st.checkpoints[i].id ≠ cid →
        (fetch_source_data hc fetchResult sched s snap now cid st).1.checkpoints[i] =
          st.checkpoints[i]) := by
  cases hc with
  | false => exact ⟨rfl, fun i hi hi2 => ⟨rfl, fun _ => rfl⟩⟩
  | true =>
    obtain ⟨hlen, hidx⟩ := fetch_source_data_spec fetchResult sched s snap now cid st
    exact ⟨hlen, fun i hi hi2 => ⟨(hidx i hi hi2).1, (hidx i hi hi2).2.1⟩⟩

/-- Running a batch preserves checkpoint row count and ids, and rows whose
checkpoint no task in the batch owns are untouched. -/
lemma runTasks_frame (now : String) :
    ∀ (ts : List Task) (st : Store),
      (runTasks now ts st).checkpoints.length = st.checkpoints.length ∧
      ∀ i (hi : i < st.checkpoints.length)
          (hi2 : i < (runTasks now ts st).checkpoints.length),
        (runTasks now ts st).checkpoints[i].id = st.checkpoints[i].id ∧
        ((∀ t ∈ ts, t.checkpoint_id ≠ st.checkpoints[i].id) →
          (runTasks now ts st).checkpoints[i] = st.checkpoints[i]) := by
  intro ts
  induction ts with
  | nil => exact fun st => ⟨rfl, fun i hi hi2 => ⟨rfl, fun _ => rfl⟩⟩
  | cons t ts ih =>
    intro st
    obtain ⟨flen, fidx⟩ := fetch_source_data_frame t.hasClient t.fetchResult t.sched
      t.source t.snapshot_time now t.checkpoint_id st
    obtain ⟨rlen, ridx⟩ := ih (fetch_source_data t.hasClient t.fetchResult t.sched
      t.source t.snapshot_time now t.checkpoint_id st).1
    refine ⟨rlen.trans flen, ?_⟩
    intro i hi hi2
    have hi1 : i < (fetch_source_data t.hasClient t.fetchResult t.sched t.source
        t.snapshot_time now t.checkpoint_id st).1.checkpoints.length :=
      lt_of_lt_of_eq hi flen.symm
    refine ⟨(ridx i hi1 hi2).1.trans (fidx i hi hi1).1, ?_⟩
    intro hall
    have hne : t.checkpoint_id ≠ st.checkpoints[i].id := hall t (List.mem_cons_self _ _)
    have h1 := (fidx i hi hi1).2 fun h => hne h.symm
    have h2 := (ridx i hi1 hi2).2 fun t2 ht2 => by
      rw [h1]
      exact hall t2 (List.mem_cons_of_mem _ ht2)
    exact h2.trans h1

/-- `getElem` respects list equality, with either bound. -/
lemma getElem_list_congr {a : Type} {l l2 : List a} (h : l = l2) (i : Nat)
    (hi : i < l.length) (hi2 : i < l2.length) : l[i] = l2[i] := by
  subst h
  rfl

/-- A task whose `try` block finishes cleanly ends with its checkpoint
`completed`, no matter what the other tasks of the batch do. -/
lemma runTasks_completed (now : String) :
    ∀ (ts : List Task) (st : Store) (j : Task), j ∈ ts →
      ts.Pairwise (fun t1 t2 => t1.checkpoint_id ≠ t2.checkpoint_id) →
      j.hasClient = true →
      (tryFetchAndStore j.fetchResult j.sched j.source j.snapshot_time now
        j.checkpoint_id st).2.2 = none →
      ∀ i (hi : i < st.checkpoints.length)
          (hi2 : i < (runTasks now ts st).checkpoints.length),
        st.checkpoints[i].id = j.checkpoint_id →
          (runTasks now ts st).checkpoints[i].status = "completed" := by
  intro ts
  induction ts with
  | nil =>
    intro st j hj
    cases hj
  | cons t ts ih =>
    intro st j hj hpw hcl hsucc i hi hi2 hid
    have hrt : runTasks now (t :: ts) st = runTasks now ts
        (fetch_source_data t.hasClient t.fetchResult t.sched t.source t.snapshot_time
          now t.checkpoint_id st).1 := rfl
    rcases List.mem_cons.mp hj with rfl | hj1
    · have hre : fetch_source_data j.hasClient j.fetchResult j.sched j.source
          j.snapshot_time now j.checkpoint_id st =
          fetch_source_data true j.fetchResult j.sched j.source j.snapshot_time now
            j.checkpoint_id st := by rw [hcl]
      obtain ⟨flen, fidx⟩ := fetch_source_data_spec j.fetchResult j.sched j.source
        j.snapshot_time now j.checkpoint_id st
      have hi1 : i < (fetch_source_data true j.fetchResult j.sched j.source
          j.snapshot_time now j.checkpoint_id st).1.checkpoints.length :=
        lt_of_lt_of_eq hi flen.symm
      have hcomp := ((fidx i hi hi1).2.2 hid).1 hsucc
      obtain ⟨rlen, ridx⟩ := runTasks_frame now ts
        (fetch_source_data true j.fetchResult j.sched j.source j.snapshot_time now
          j.checkpoint_id st).1
      have hlist : (runTasks now (j :: ts) st).checkpoints =
          (runTasks now ts (fetch_source_data true j.fetchResult j.sched j.source
            j.snapshot_time now j.checkpoint_id st).1).checkpoints := by
        rw [hrt, hre]
      have hi2b : i < (runTasks now ts (fetch_source_data true j.fetchResult j.sched
          j.source j.snapshot_time now j.checkpoint_id
          st).1).checkpoints.length :=
        lt_of_lt_of_eq hi2 (by rw [hlist])
      rw [getElem_list_congr hlist i hi2 hi2b]
      have hall : ∀ t2 ∈ ts, t2.checkpoint_id ≠ (fetch_source_data true j.fetchResult
          j.sched j.source j.snapshot_time now j.checkpoint_id
          st).1.checkpoints[i].id := by
        intro t2 ht2
        rw [(fidx i hi hi1).1, hid]
        exact fun h => (List.pairwise_cons.mp hpw).1 t2 ht2 h.symm
      rw [(ridx i hi1 hi2b).2 hall]
      exact hcomp
    · obtain ⟨flen, fidx⟩ := fetch_source_data_frame t.hasClient t.fetchResult t.sched
        t.source t.snapshot_time now t.checkpoint_id st
      have hi1 : i < (fetch_source_data t.hasClient t.fetchResult t.sched t.source
          t.snapshot_time now t.checkpoint_id st).1.checkpoints.length :=
        lt_of_lt_of_eq hi flen.symm
      have hsucc1 := (tryFetchAndStore_exc_indep j.fetchResult j.sched j.source
        j.snapshot_time now j.checkpoint_id
        (fetch_source_data t.hasClient t.fetchResult t.sched t.source t.snapshot_time
          now t.checkpoint_id st).1 st).trans hsucc
      have hid1 : (fetch_source_data t.hasClient t.fetchResult t.sched t.source
          t.snapshot_time now t.checkpoint_id st).1.checkpoints[i].id =
          j.checkpoint_id := by rw [(fidx i hi hi1).1, hid]
      have hlist : (runTasks now (t :: ts) st).checkpoints =
          (runTasks now ts (fetch_source_data t.hasClient t.fetchResult t.sched
            t.source t.snapshot_time now t.checkpoint_id st).1).checkpoints := by
        rw [hrt]
      have hi2b : i < (runTasks now ts (fetch_source_data t.hasClient t.fetchResult
          t.sched t.source t.snapshot_time now t.checkpoint_id
          st).1).checkpoints.length :=
        lt_of_lt_of_eq hi2 (by rw [hlist])
      rw [getElem_list_congr hlist i hi2 hi2b]
      exact ih (fetch_source_data t.hasClient t.fetchResult t.sched t.source
        t.snapshot_time now t.checkpoint_id st).1 j hj1
        (List.pairwise_cons.mp hpw).2 hcl hsucc1 i hi1 hi2b hid1

/-- Claim C7: a fetch task whose adapter call or data-table write raises has
the exception caught inside the task — `fetch_source_data` still returns a
stats value carrying the message, and the task's checkpoint is marked
`failed` with the exception type and text and the partial counts accumulated
so far; a task whose `try` block finishes cleanly ends `completed`; and in a
batch, a task that runs cleanly ends with its checkpoint `completed` no
matter what exceptions the other tasks of the batch hit. -/
theorem C7_task_isolation :
    (∀ (fetchResult : Except PyExc (List MarketRec)) (sched : Nat → Option PyExc)
        (source snapshot_time now : String) (cpId : Nat) (st : Store) (e : PyExc),
      (tryFetchAndStore fetchResult sched source snapshot_time now cpId st).2.2 =
          some e →
        (fetch_source_data true fetchResult sched source snapshot_time now cpId
          st).2.error = some (excMsg e) ∧
        ∀ i (hi : i < st.checkpoints.length)
            (hi2 : i < (fetch_source_data true fetchResult sched source snapshot_time
              now cpId st).1.checkpoints.length),
          st.checkpoints[i].id = cpId →
            (fetch_source_data true fetchResult sched source snapshot_time now cpId
              st).1.checkpoints[i].status = "failed" ∧
            (fetch_source_data true fetchResult sched source snapshot_time now cpId
              st).1.checkpoints[i].error_message = some (excMsg e) ∧
            (fetch_source_data true fetchResult sched source snapshot_time now cpId
              st).1.checkpoints[i].records_fetched =
              ((tryFetchAndStore fetchResult sched source snapshot_time now cpId
                st).2.1.fetched : Int) ∧
            (fetch_source_data true fetchResult sched source snapshot_time now cpId
              st).1.checkpoints[i].records_inserted =
              ((tryFetchAndStore fetchResult sched source snapshot_time now cpId
                st).2.1.inserted : Int) ∧
            (fetch_source_data true fetchResult sched source snapshot_time now cpId
              st).1.checkpoints[i].records_updated =
              ((tryFetchAndStore fetchResult sched source snapshot_time now cpId
                st).2.1.updated : Int) ∧
            (fetch_source_data true fetchResult sched source snapshot_time now cpId
              st).1.checkpoints[i].records_deduped =
              ((tryFetchAndStore fetchResult sched source snapshot_time now cpId
                st).2.1.deduped : Int)) ∧
    (∀ (fetchResult : Except PyExc (List MarketRec)) (sched : Nat → Option PyExc)
        (source snapshot_time now : String) (cpId : Nat) (st : Store),
      (tryFetchAndStore fetchResult sched source snapshot_time now cpId st).2.2 =
          none →
        ∀ i (hi : i < st.checkpoints.length)
            (hi2 : i < (fetch_source_data true fetchResult sched source snapshot_time
              now cpId st).1.checkpoints.length),
          st.checkpoints[i].id = cpId →
            (fetch_source_data true fetchResult sched source snapshot_time now cpId
              st).1.checkpoints[i].status = "completed") ∧
    (∀ (now : String) (ts : List Task) (st : Store) (j : Task), j ∈ ts →
      ts.Pairwise (fun t1 t2 => t1.checkpoint_id ≠ t2.checkpoint_id) →
      j.hasClient = true →
      (tryFetchAndStore j.fetchResult j.sched j.source j.snapshot_time now
        j.checkpoint_id st).2.2 = none →
      ∀ i (hi : i < st.checkpoints.length)
          (hi2 : i < (runTasks now ts st).checkpoints.length),
        st.checkpoints[i].id = j.checkpoint_id →
          (runTasks now ts st).checkpoints[i].status = "completed") := by
  refine ⟨?_, ?_, ?_⟩
  · intro fr sched source snap now cpId st e he
    constructor
    · rcases htry : tryFetchAndStore fr sched source snap now cpId st with ⟨st2, stats, exc⟩
      rw [htry] at he
      have he2 : exc = some e := he
      subst he2
      simp [fetch_source_data, htry]
    · intro i hi hi2 hid
      obtain ⟨_, hidx⟩ := fetch_source_data_spec fr sched source snap now cpId st
      exact ((hidx i hi hi2).2.2 hid).2 e he
  · intro fr sched source snap now cpId st hnone i hi hi2 hid
    obtain ⟨_, hidx⟩ := fetch_source_data_spec fr sched source snap now cpId st
    exact ((hidx i hi hi2).2.2 hid).1 hnone
  · intro now ts st j hj hpw hcl hsucc
    exact runTasks_completed now ts st j hj hpw hcl hsucc

/-- A failing fetch task of the C7 witness batch. -/
def taskFail : Task :=
  { source := "Kalshi", hasClient := true,
    fetchResult := Except.error { name := "TimeoutError", text := "timed out" },
    sched := fun _ => none, snapshot_time := "T", checkpoint_id := 1 }

/-- A clean fetch task of the C7 witness batch. -/
def taskOk : Task :=
  { source := "PredictIt", hasClient := true, fetchResult := Except.ok [],
    sched := fun _ => none, snapshot_time := "T", checkpoint_id := 2 }

/-- Checkpoint row of the failing task. -/
def cpRow1 : CheckpointRow :=
  { id := 1, source := "Kalshi", sync_type := "backfill", window_start := "W0",
    window_end := "W1", status := "pending", records_fetched := 0,
    records_inserted := 0, records_updated := 0, records_deduped := 0,
    error_message := none, started_at := none, completed_at := none,
    created_at := "T0" }

/-- Checkpoint row of the clean task. -/
def cpRow2 : CheckpointRow :=
  { cpRow1 with id := 2, source := "PredictIt" }

/-- A store with the two tasks' pending checkpoints. -/
def stBatch : Store := { Store.empty with checkpoints := [cpRow1, cpRow2] }

/-- Witness for C7: in a two-task batch whose first task's adapter call raises
a timeout, the first task reports the message in its returned stats while the
second task's checkpoint still ends `completed`. -/
theorem C7_task_isolation_witness :
    (fetch_source_data true taskFail.fetchResult taskFail.sched "Kalshi" "T" "T9" 1
        stBatch).2.error = some "TimeoutError: timed out" ∧
    ((runTasks "T9" [taskFail, taskOk] stBatch).checkpoints.get
        ⟨1, by decide⟩).status = "completed" :=
  ⟨(C7_task_isolation.1 taskFail.fetchResult taskFail.sched "Kalshi" "T" "T9" 1
      stBatch { name := "TimeoutError", text := "timed out" } rfl).1,
   C7_task_isolation.2.2 "T9" [taskFail, taskOk] stBatch taskOk
     (List.mem_cons_of_mem _ (List.mem_cons_self _ _))
     (by
       refine List.Pairwise.cons ?_ (List.pairwise_singleton _ _)
       intro t ht
       rw [List.mem_singleton] at ht
       subst ht
       decide)
     rfl rfl 1 (by decide) (by decide) rfl⟩

end ElectionOdds